import Mathlib

set_option maxRecDepth 8000

/-!
Verification of the file-organization and identity-resolution engine of the
google-takeout-photos-organizer repository.

The TypeScript sources are shallowly embedded: strings are `List Char`
(JavaScript strings are sequences of UTF-16 code units; all literals relevant
here are ASCII), byte buffers are `List Nat`, epoch timestamps are `Int`
(seconds), and filesystem effects are passed in as explicit oracles describing
the outcome of each `fs` call.  Every definition is translated from the
corresponding source function, which is named in its doc comment.
-/

/-- Coerce a Lean string literal to the `List Char` representation used for
JavaScript strings throughout this development. -/
def s2l (s : String) : List Char := s.data

/-- The longest matching initial segment together with the remainder:
`spanP p l = (l.takeWhile p, l.dropWhile p)` written as one recursion.  Used to
model the deterministic part of greedy regex matching. -/
def spanP (p : Char → Bool) : List Char → List Char × List Char
  | [] => ([], [])
  | c :: rest =>
    if p c then
      let r := spanP p rest
      (c :: r.1, r.2)
    else ([], c :: rest)

theorem spanP_sat_head (p : Char → Bool) (xs : List Char) (y : Char) (ys : List Char)
    (hall : ∀ c ∈ xs, p c = true) (hy : p y = false) :
    spanP p (xs ++ y :: ys) = (xs, y :: ys) := by
  induction xs with
  | nil => simp [spanP, hy]
  | cons a as ih =>
    have ha : p a = true := hall a (by simp)
    have ih2 := ih (fun c hc => hall c (by simp [hc]))
    simp [spanP, ha, ih2]

theorem spanP_sound (p : Char → Bool) (l : List Char) : ∀ a b, spanP p l = (a, b) →
    l = a ++ b ∧ (∀ c ∈ a, p c = true) ∧ (b = [] ∨ ∃ y ys, b = y :: ys ∧ p y = false) := by
  induction l with
  | nil =>
    intro a b h
    have h1 : a = [] := by
      have := congrArg Prod.fst h
      simpa using this.symm
    have h2 : b = [] := by
      have := congrArg Prod.snd h
      simpa using this.symm
    subst h1; subst h2
    exact ⟨rfl, by simp, Or.inl rfl⟩
  | cons c rest ih =>
    intro a b h
    by_cases hc : p c = true
    · have hred : spanP p (c :: rest) = (c :: (spanP p rest).1, (spanP p rest).2) := by
        simp [spanP, hc]
      rw [hred] at h
      have h1 : a = c :: (spanP p rest).1 := by
        have := congrArg Prod.fst h
        simpa using this.symm
      have h2 : b = (spanP p rest).2 := by
        have := congrArg Prod.snd h
        simpa using this.symm
      have hrec := ih (spanP p rest).1 (spanP p rest).2 rfl
      subst h1; subst h2
      refine ⟨by simpa using congrArg (List.cons c) hrec.1, ?_, hrec.2.2⟩
      intro x hx
      rcases List.mem_cons.mp hx with hx | hx
      · subst hx; exact hc
      · exact hrec.2.1 x hx
    · have hcf : p c = false := by simpa using hc
      have hred : spanP p (c :: rest) = ([], c :: rest) := by
        simp [spanP, hcf]
      rw [hred] at h
      have h1 : a = [] := by
        have := congrArg Prod.fst h
        simpa using this.symm
      have h2 : b = c :: rest := by
        have := congrArg Prod.snd h
        simpa using this.symm
      subst h1; subst h2
      exact ⟨rfl, by simp, Or.inr ⟨c, rest, rfl, hcf⟩⟩

/-- Numeric value of a decimal digit string, as produced by JavaScript
`parseInt(s, 10)` on an all-digit string. -/
def digitsToNat (ds : List Char) : Nat :=
  ds.foldl (fun a c => 10 * a + (c.toNat - 48)) 0

/-! ## Duplicate-suffix parsing (src/utils/path-utils.ts and constants.ts) -/

/-- Inspects the result of the span that located the last dot: the remainder
must start with the dot and the part after the dot must be nonempty. -/
def lastDotStep : List Char × List Char → Option (List Char × List Char)
  | (_, []) => none
  | (revBody, c :: revStem) =>
    if c = '.' then
      if revBody = [] then none else some (revStem.reverse, revBody.reverse)
    else none

/-- First stage of matching `DUPLICATE_PATTERN = /^(.+)\((\d+)\)(\.[^.]+)$/`
(constants.ts): the anchored group `(\.[^.]+)$` necessarily starts at the last
dot of the string, so split `l` as `stem ++ '.' :: extBody` with `extBody`
nonempty and dot-free, working on the reversed string. -/
def lastDotSplit (l : List Char) : Option (List Char × List Char) :=
  lastDotStep (spanP (fun c => !(c == '.')) l.reverse)

/-- Inspects the result of the span that located the trailing digit run of the
stem: the run must be nonempty, preceded by the opening parenthesis and by a
nonempty name. -/
def parenStep : List Char × List Char → Option (List Char × List Char)
  | (_, []) => none
  | (revDigits, c :: revName) =>
    if c = '(' then
      if revDigits = [] then none
      else if revName = [] then none
      else some (revName.reverse, revDigits.reverse)
    else none

/-- Second stage of matching `DUPLICATE_PATTERN`: against the stem, the greedy
group `(.+)` pushes `\((\d+)\)` as far right as possible, so the digit group is
the maximal trailing digit run of the stem (a digit run cannot contain the
parenthesis that must precede it).  Split `stem` as `name ++ '(' :: ds ++ [')']`
with `name` and `ds` nonempty and `ds` all digits. -/
def parenDigitsSplit (stem : List Char) : Option (List Char × List Char) :=
  match stem.reverse with
  | [] => none
  | c :: r1 => if c = ')' then parenStep (spanP Char.isDigit r1) else none

/-- Matching of the full regex `DUPLICATE_PATTERN = /^(.+)\((\d+)\)(\.[^.]+)$/`
(constants.ts), returning the three capture groups
(name, digits, extension-with-dot) exactly when the regex matches. -/
def matchDuplicatePattern (filename : List Char) : Option (List Char × List Char × List Char) :=
  match lastDotSplit filename with
  | none => none
  | some (stem, extBody) =>
    match parenDigitsSplit stem with
    | none => none
    | some (name, ds) => some (name, ds, '.' :: extBody)

/-- Embedding of `parseDuplicateFilename` (src/utils/path-utils.ts): on a
`DUPLICATE_PATTERN` match the base filename is `name + ext` and the duplicate
index is the parsed digit group; otherwise the filename itself with index 0. -/
def parseDuplicateFilename (filename : List Char) : List Char × Nat :=
  match matchDuplicatePattern filename with
  | some (name, ds, ext) => (name ++ ext, digitsToNat ds)
  | none => (filename, 0)

/-- The duplicate-group key as computed in `processMediaFile`
(src/phases/2-discovery.ts): `baseFilename !== filename ? baseFilename : null`. -/
def duplicateGroupKey (filename : List Char) : Option (List Char) :=
  let p := parseDuplicateFilename filename
  if p.1 ≠ filename then some p.1 else none

/-- The decomposition of a filename as an instance of the duplicate-suffix
form `name(digits)ext` with `ext` a dot-extension (a dot followed by a
nonempty dot-free tail), `name` nonempty and `digits` a nonempty digit run. -/
def DupForm (f name ds extb : List Char) : Prop :=
  f = name ++ '(' :: (ds ++ ')' :: '.' :: extb) ∧
    name ≠ [] ∧ ds ≠ [] ∧ (∀ c ∈ ds, c.isDigit = true) ∧
    extb ≠ [] ∧ (∀ c ∈ extb, ¬c = '.')

theorem lastDotSplit_of_form (stem extb : List Char) (he : extb ≠ [])
    (hedot : ∀ c ∈ extb, ¬c = '.') :
    lastDotSplit (stem ++ '.' :: extb) = some (stem, extb) := by
  have hrev : (stem ++ '.' :: extb).reverse = extb.reverse ++ '.' :: stem.reverse := by
    simp
  have hs1 : spanP (fun c => !(c == '.')) (extb.reverse ++ '.' :: stem.reverse)
      = (extb.reverse, '.' :: stem.reverse) := by
    apply spanP_sat_head
    · intro c hc
      have hne := hedot c (by simpa using hc)
      simp [hne]
    · simp
  have hne : extb.reverse ≠ [] := by simpa using he
  unfold lastDotSplit
  rw [hrev, hs1]
  simp [lastDotStep, hne]

theorem lastDotSplit_sound (l stem extb : List Char)
    (h : lastDotSplit l = some (stem, extb)) :
    l = stem ++ '.' :: extb ∧ extb ≠ [] ∧ ∀ c ∈ extb, ¬c = '.' := by
  unfold lastDotSplit at h
  rcases hsp : spanP (fun c => !(c == '.')) l.reverse with ⟨a, b⟩
  rw [hsp] at h
  have hsnd := spanP_sound _ _ _ _ hsp
  rcases b with _ | ⟨c, revStem⟩
  · simp [lastDotStep] at h
  · simp only [lastDotStep] at h
    by_cases hc : c = '.'
    · subst hc
      rw [if_pos rfl] at h
      by_cases ha : a = []
      · rw [if_pos ha] at h
        exact absurd h (by simp)
      · rw [if_neg ha] at h
        simp only [Option.some.injEq, Prod.mk.injEq] at h
        obtain ⟨hstem, hext⟩ := h
        have hl : l = revStem.reverse ++ '.' :: a.reverse := by
          have h2 := congrArg List.reverse hsnd.1
          rw [List.reverse_reverse] at h2
          rw [h2]
          simp
        refine ⟨by rw [hl, hstem, hext], ?_, ?_⟩
        · rw [← hext]
          simpa using ha
        · intro c hc2
          rw [← hext] at hc2
          have hmem : c ∈ a := by simpa using hc2
          have := hsnd.2.1 c hmem
          simp at this
          exact this
    · rw [if_neg hc] at h
      exact absurd h (by simp)

theorem parenDigitsSplit_of_form (name ds : List Char) (hn : name ≠ []) (hd : ds ≠ [])
    (hdall : ∀ c ∈ ds, c.isDigit = true) :
    parenDigitsSplit (name ++ '(' :: (ds ++ [')'])) = some (name, ds) := by
  have hrev : (name ++ '(' :: (ds ++ [')'])).reverse
      = ')' :: (ds.reverse ++ '(' :: name.reverse) := by
    simp
  have hs2 : spanP Char.isDigit (ds.reverse ++ '(' :: name.reverse)
      = (ds.reverse, '(' :: name.reverse) := by
    apply spanP_sat_head
    · intro c hc
      exact hdall c (by simpa using hc)
    · decide
  have hd2 : ds.reverse ≠ [] := by simpa using hd
  have hn2 : name.reverse ≠ [] := by simpa using hn
  unfold parenDigitsSplit
  rw [hrev]
  simp only []
  rw [if_pos trivial, hs2]
  simp [parenStep, hd2, hn2]

theorem parenDigitsSplit_sound (stem name ds : List Char)
    (h : parenDigitsSplit stem = some (name, ds)) :
    stem = name ++ '(' :: (ds ++ [')']) ∧ name ≠ [] ∧ ds ≠ [] ∧
      ∀ c ∈ ds, c.isDigit = true := by
  unfold parenDigitsSplit at h
  rcases hrev : stem.reverse with _ | ⟨c0, r1⟩
  · rw [hrev] at h
    exact absurd h (by simp)
  · rw [hrev] at h
    simp only [] at h
    by_cases hc0 : c0 = ')'
    · subst hc0
      rw [if_pos rfl] at h
      rcases hsp : spanP Char.isDigit r1 with ⟨a, b⟩
      rw [hsp] at h
      have hsnd := spanP_sound _ _ _ _ hsp
      rcases b with _ | ⟨c1, revName⟩
      · simp [parenStep] at h
      · simp only [parenStep] at h
        by_cases hc1 : c1 = '('
        · subst hc1
          rw [if_pos rfl] at h
          by_cases hd : a = []
          · rw [if_pos hd] at h
            exact absurd h (by simp)
          · rw [if_neg hd] at h
            by_cases hn : revName = []
            · rw [if_pos hn] at h
              exact absurd h (by simp)
            · rw [if_neg hn] at h
              simp only [Option.some.injEq, Prod.mk.injEq] at h
              obtain ⟨hname, hds⟩ := h
              have hstem : stem = revName.reverse ++ '(' :: (a.reverse ++ [')']) := by
                have h2 := congrArg List.reverse hrev
                rw [List.reverse_reverse] at h2
                rw [h2, hsnd.1]
                simp
              refine ⟨by rw [hstem, hname, hds], ?_, ?_, ?_⟩
              · rw [← hname]
                simpa using hn
              · rw [← hds]
                simpa using hd
              · intro c hc
                rw [← hds] at hc
                exact hsnd.2.1 c (by simpa using hc)
        · rw [if_neg hc1] at h
          exact absurd h (by simp)
    · rw [if_neg hc0] at h
      exact absurd h (by simp)

theorem matchDuplicatePattern_of_form (f name ds extb : List Char) (h : DupForm f name ds extb) :
    matchDuplicatePattern f = some (name, ds, '.' :: extb) := by
  obtain ⟨hf, hn, hd, hdall, he, hedot⟩ := h
  have hassoc : f = (name ++ '(' :: (ds ++ [')'])) ++ '.' :: extb := by
    rw [hf]
    simp
  have h1 := lastDotSplit_of_form (name ++ '(' :: (ds ++ [')'])) extb he hedot
  have h2 := parenDigitsSplit_of_form name ds hn hd hdall
  unfold matchDuplicatePattern
  rw [hassoc, h1]
  simp only []
  rw [h2]

theorem matchDuplicatePattern_sound (f name ds ext : List Char)
    (h : matchDuplicatePattern f = some (name, ds, ext)) :
    ∃ extb, ext = '.' :: extb ∧ DupForm f name ds extb := by
  unfold matchDuplicatePattern at h
  rcases h1 : lastDotSplit f with _ | ⟨stem, extBody⟩
  · rw [h1] at h
    exact absurd h (by simp)
  · rw [h1] at h
    simp only [] at h
    rcases h2 : parenDigitsSplit stem with _ | ⟨nm, d⟩
    · rw [h2] at h
      exact absurd h (by simp)
    · rw [h2] at h
      simp only [Option.some.injEq, Prod.mk.injEq] at h
      obtain ⟨hname, hds, hext⟩ := h
      have hs1 := lastDotSplit_sound f stem extBody h1
      have hs2 := parenDigitsSplit_sound stem nm d h2
      refine ⟨extBody, hext.symm, ?_, ?_, ?_, ?_, hs1.2.1, hs1.2.2⟩
      · rw [hs1.1, hs2.1, ← hname, ← hds]
        simp
      · rw [← hname]
        exact hs2.2.1
      · rw [← hds]
        exact hs2.2.2.1
      · rw [← hds]
        exact hs2.2.2.2

theorem dupBase_ne_filename (f name ds extb : List Char) (h : DupForm f name ds extb) :
    name ++ '.' :: extb ≠ f := by
  intro heq
  have hlen := congrArg List.length (heq.trans h.1)
  simp [List.length_append] at hlen
  have hdlen : ds.length ≠ 0 := by
    intro h0
    exact h.2.2.1 (List.length_eq_zero.mp h0)
  omega

theorem parseDuplicateFilename_of_form (f name ds extb : List Char) (h : DupForm f name ds extb) :
    parseDuplicateFilename f = (name ++ '.' :: extb, digitsToNat ds) ∧
    duplicateGroupKey f = some (name ++ '.' :: extb) := by
  have hm := matchDuplicatePattern_of_form f name ds extb h
  have hp : parseDuplicateFilename f = (name ++ '.' :: extb, digitsToNat ds) := by
    unfold parseDuplicateFilename
    rw [hm]
  refine ⟨hp, ?_⟩
  unfold duplicateGroupKey
  rw [hp]
  simp only []
  rw [if_pos (dupBase_ne_filename f name ds extb h)]

theorem parseDuplicateFilename_of_no_form (f : List Char)
    (h : ∀ name ds extb, ¬DupForm f name ds extb) :
    parseDuplicateFilename f = (f, 0) ∧ duplicateGroupKey f = none := by
  have hm : matchDuplicatePattern f = none := by
    rcases hq : matchDuplicatePattern f with _ | ⟨nm, d, e⟩
    · rfl
    · obtain ⟨extb, _, hform⟩ := matchDuplicatePattern_sound f nm d e hq
      exact absurd hform (h nm d extb)
  have hp : parseDuplicateFilename f = (f, 0) := by
    unfold parseDuplicateFilename
    rw [hm]
  refine ⟨hp, ?_⟩
  unfold duplicateGroupKey
  rw [hp]
  simp

/-- C1: for every duplicate-suffix filename of the form `name(N)ext` (with `N` a
digit string and `ext` a dot-extension), `parseDuplicateFilename` returns the
base filename `nameext` and the ordinal denoted by `N`, and the caller's
duplicate-group key is the base filename; for every filename not of that form
the ordinal is 0 and no duplicate-group key is set; the group key is set
exactly when the parsed base filename differs from the original filename. -/
theorem C1_parseDuplicateFilename_spec (f : List Char) :
    (∀ name ds extb, DupForm f name ds extb →
        parseDuplicateFilename f = (name ++ '.' :: extb, digitsToNat ds) ∧
        duplicateGroupKey f = some (name ++ '.' :: extb)) ∧
    ((∀ name ds extb, ¬DupForm f name ds extb) →
        parseDuplicateFilename f = (f, 0) ∧ duplicateGroupKey f = none) ∧
    (duplicateGroupKey f = none ↔ (parseDuplicateFilename f).1 = f) := by
  refine ⟨fun name ds extb h => parseDuplicateFilename_of_form f name ds extb h,
    fun h => parseDuplicateFilename_of_no_form f h, ?_⟩
  unfold duplicateGroupKey
  by_cases hb : (parseDuplicateFilename f).1 = f
  · simp [hb]
  · simp [hb]

theorem C1_parseDuplicateFilename_spec_witness :
    parseDuplicateFilename (s2l "photo(2).jpg") = (s2l "photo.jpg", 2) ∧
    duplicateGroupKey (s2l "photo(2).jpg") = some (s2l "photo.jpg") ∧
    parseDuplicateFilename (s2l "photo.jpg") = (s2l "photo.jpg", 0) ∧
    duplicateGroupKey (s2l "photo.jpg") = none := by
  have hform : DupForm (s2l "photo(2).jpg") (s2l "photo") (s2l "2") (s2l "jpg") :=
    ⟨by decide, by decide, by decide, by decide, by decide, by decide⟩
  have h1 := (C1_parseDuplicateFilename_spec (s2l "photo(2).jpg")).1
    (s2l "photo") (s2l "2") (s2l "jpg") hform
  have hnomatch : matchDuplicatePattern (s2l "photo.jpg") = none := by decide
  have hnoform : ∀ name ds extb, ¬DupForm (s2l "photo.jpg") name ds extb := by
    intro name ds extb hform2
    have := matchDuplicatePattern_of_form _ name ds extb hform2
    rw [hnomatch] at this
    exact absurd this (by simp)
  have h2 := (C1_parseDuplicateFilename_spec (s2l "photo.jpg")).2.1 hnoform
  have e1 : s2l "photo" ++ '.' :: s2l "jpg" = s2l "photo.jpg" := by decide
  have e2 : digitsToNat (s2l "2") = 2 := by decide
  rw [e1, e2] at h1
  exact ⟨h1.1, h1.2, h2.1, h2.2⟩

/-- C10: a filename of the form `name(0)ext` parses to duplicate ordinal 0
together with a base filename that differs from the original, so the item gets
a non-null duplicate-group key while carrying ordinal 0 — ordinal 0 does not
imply the canonical (group-less) variant. -/
theorem C10_zero_ordinal_group_key (f name extb : List Char)
    (h : DupForm f name (s2l "0") extb) :
    parseDuplicateFilename f = (name ++ '.' :: extb, 0) ∧
    (parseDuplicateFilename f).1 ≠ f ∧
    duplicateGroupKey f = some (name ++ '.' :: extb) ∧
    duplicateGroupKey f ≠ none := by
  have hp := parseDuplicateFilename_of_form f name (s2l "0") extb h
  have hz : digitsToNat (s2l "0") = 0 := by decide
  rw [hz] at hp
  refine ⟨hp.1, ?_, hp.2, ?_⟩
  · rw [hp.1]
    exact dupBase_ne_filename f name (s2l "0") extb h
  · rw [hp.2]
    simp

theorem C10_zero_ordinal_group_key_witness :
    parseDuplicateFilename (s2l "photo(0).jpg") = (s2l "photo.jpg", 0) ∧
    duplicateGroupKey (s2l "photo(0).jpg") = some (s2l "photo.jpg") := by
  have hform : DupForm (s2l "photo(0).jpg") (s2l "photo") (s2l "0") (s2l "jpg") :=
    ⟨by decide, by decide, by decide, by decide, by decide, by decide⟩
  have h := C10_zero_ordinal_group_key (s2l "photo(0).jpg") (s2l "photo") (s2l "jpg") hform
  have e1 : s2l "photo" ++ '.' :: s2l "jpg" = s2l "photo.jpg" := by decide
  rw [e1] at h
  exact ⟨h.1, h.2.2.1⟩

/-! ## Timestamps and year extraction
(src/services/metadata-parser.ts, src/services/date-extractor.ts) -/

/-- UTC calendar year of an epoch-seconds instant — the value of
`new Date(t * 1000).getUTCFullYear()` in JavaScript (proleptic Gregorian
calendar; civil-from-days computation). -/
def epochToUTCYear (t : Int) : Int :=
  let days : Int := Int.fdiv t 86400
  let z : Int := days + 719468
  let era : Int := Int.fdiv z 146097
  let doe : Nat := (z - era * 146097).toNat
  let yoe : Nat := (doe - doe / 1460 + doe / 36524 - doe / 146096) / 365
  let y : Int := (yoe : Int) + era * 400
  let doy : Nat := doe - (365 * yoe + yoe / 4 - yoe / 100)
  let mp : Nat := (5 * doy + 2) / 153
  let m : Nat := if mp < 10 then mp + 3 else mp - 9
  if m ≤ 2 then y + 1 else y

/-- `MIN_TIMESTAMP = 631152000` (1990-01-01, metadata-parser.ts). -/
def MIN_TIMESTAMP : Int := 631152000

/-- `getMaxTimestamp` (metadata-parser.ts):
`Math.floor(Date.now() / 1000) + 31536000` (365 days ahead); the parameter
`now` is the current instant in epoch seconds. -/
def getMaxTimestamp (now : Int) : Int := now + 31536000

/-- `isValidTimestamp` (metadata-parser.ts). -/
def isValidTimestamp (now t : Int) : Bool :=
  MIN_TIMESTAMP ≤ t && t ≤ getMaxTimestamp now

/-- The metadata fields consumed by the timestamp extractors.  A field holds
the numeric value of `parseInt(x.timestamp, 10)`; a missing block or a
`parseInt` result of `NaN` is modelled as `none`. -/
structure GoogleMetadata where
  photoTakenTime : Option Int
  creationTime : Option Int
deriving DecidableEq

/-- `extractPhotoTakenTimestamp` (metadata-parser.ts). -/
def extractPhotoTakenTimestamp (now : Int) (md : GoogleMetadata) : Option Int :=
  match md.photoTakenTime with
  | none => none
  | some t => if isValidTimestamp now t then some t else none

/-- `extractCreationTimestamp` (metadata-parser.ts). -/
def extractCreationTimestamp (now : Int) (md : GoogleMetadata) : Option Int :=
  match md.creationTime with
  | none => none
  | some t => if isValidTimestamp now t then some t else none

/-- Separator class `[-_]` of `DATE_PATTERN` (constants.ts). -/
def isDateSep (c : Char) : Bool := c == '-' || c == '_'

/-- The day group `([0-3]\d)` of `DATE_PATTERN` matched at the head. -/
def dayAt : List Char → Bool
  | d1 :: d2 :: _ => ('0' ≤ d1 && d1 ≤ '3') && d2.isDigit
  | _ => false

/-- After the month group: the greedy optional separator, then the day group.
If a separator is present but the day group fails after it, the regex
backtracks to the empty separator and the day group must then match the
separator character itself, which is impossible — so taking the separator when
present is deterministic. -/
def monthTail (l : List Char) : Bool :=
  match l with
  | [] => false
  | c :: rest => if isDateSep c then dayAt rest else dayAt l

/-- The month group `([01]\d)` of `DATE_PATTERN` followed by its tail. -/
def monthAt : List Char → Bool
  | m1 :: m2 :: rest => (m1 == '0' || m1 == '1') && m2.isDigit && monthTail rest
  | _ => false

/-- After the year group: the greedy optional separator, then the month group
(deterministic for the same reason as `monthTail`). -/
def yearTail (l : List Char) : Bool :=
  match l with
  | [] => false
  | c :: rest => if isDateSep c then monthAt rest else monthAt l

/-- The year group `(20[0-2]\d)` of `DATE_PATTERN` matched at the head of `l`,
followed by the rest of the pattern; returns the numeric year on success. -/
def matchDateAt (l : List Char) : Option Nat :=
  match l with
  | c1 :: c2 :: c3 :: c4 :: rest =>
    if c1 = '2' ∧ c2 = '0' ∧ ('0' ≤ c3 ∧ c3 ≤ '2') ∧ c4.isDigit ∧ yearTail rest then
      some (2000 + 10 * (c3.toNat - 48) + (c4.toNat - 48))
    else none
  | _ => none

/-- Leftmost match of
`DATE_PATTERN = /(?:^|[^0-9])(20[0-2]\d)[-_]?([01]\d)[-_]?([0-3]\d)/`
(constants.ts) in a filename, returning the year capture group.  The engine
tries match start positions left to right, and the year group can start at
position p exactly when p = 0 or the preceding character is not a digit, so
the scan carries the previous character. -/
def findDateYearAux (prev : Option Char) (l : List Char) : Option Nat :=
  match l with
  | [] => none
  | c :: rest =>
    let boundary : Bool :=
      match prev with
      | none => true
      | some p => !p.isDigit
    match (if boundary then matchDateAt (c :: rest) else none) with
    | some y => some y
    | none => findDateYearAux (some c) rest

/-- `file.filename.match(DATE_PATTERN)` followed by `parseInt(match[1], 10)`. -/
def findDateYear (l : List Char) : Option Nat := findDateYearAux none l

/-- Matching of `YEAR_FOLDER_PATTERN = /^Photos from (\d{4})$/` (constants.ts)
followed by `parseInt(match[1], 10)`. -/
def matchYearFolder (folder : List Char) : Option Nat :=
  if folder.take 12 = s2l "Photos from " then
    match folder.drop 12 with
    | [a, b, c, d] =>
      if a.isDigit && b.isDigit && c.isDigit && d.isDigit then
        some (digitsToNat [a, b, c, d])
      else none
    | _ => none
  else none

/-- `isValidYear` (src/services/date-extractor.ts); `currentYear` is
`new Date().getUTCFullYear()` at the instant `now`. -/
def isValidYear (now year : Int) : Bool :=
  1990 ≤ year && year ≤ epochToUTCYear now + 1

/-- Lifecycle status of a catalog item (src/types/media.ts). -/
inductive ProcessingStatus
  | pending
  | completed
  | failed
deriving DecidableEq

/-- The two resolved destination paths of an item. -/
structure ProcessedPaths where
  byYear : Option (List Char)
  byAlbum : Option (List Char)
deriving DecidableEq

/-- The fields of a `MediaFile` (src/types/media.ts) consumed by the verified
components.  `statMtime` is the mtime (epoch seconds) that `fs.stat` reports
for `originalPath`; `none` models a stat failure. -/
structure MediaFile where
  originalPath : List Char
  filename : List Char
  sourceFolder : List Char
  metadata : Option GoogleMetadata
  statMtime : Option Int
  processedPaths : ProcessedPaths
  status : ProcessingStatus
  error : Option (List Char)
deriving DecidableEq

/-- Priority 5 of `extractYear` (src/services/date-extractor.ts): file
modification time, else the unknown-year marker -1. -/
def extractYearStage5 (now : Int) (file : MediaFile) : Int :=
  match file.statMtime with
  | none => -1
  | some m =>
    let y := epochToUTCYear m
    if isValidYear now y then y else -1

/-- Priority 4 of `extractYear`: the "Photos from YYYY" source folder. -/
def extractYearStage4 (now : Int) (file : MediaFile) : Int :=
  match matchYearFolder file.sourceFolder with
  | none => extractYearStage5 now file
  | some y => if isValidYear now (y : Int) then (y : Int) else extractYearStage5 now file

/-- Priority 3 of `extractYear`: a date pattern in the filename. -/
def extractYearStage3 (now : Int) (file : MediaFile) : Int :=
  match findDateYear file.filename with
  | none => extractYearStage4 now file
  | some y => if isValidYear now (y : Int) then (y : Int) else extractYearStage4 now file

/-- Priority 2 of `extractYear`: the metadata creation timestamp. -/
def extractYearStage2 (now : Int) (file : MediaFile) : Int :=
  match file.metadata with
  | none => extractYearStage3 now file
  | some md =>
    match extractCreationTimestamp now md with
    | none => extractYearStage3 now file
    | some ts =>
      let y := epochToUTCYear ts
      if isValidYear now y then y else extractYearStage3 now file

/-- `extractYear` (src/services/date-extractor.ts), starting with priority 1
(the metadata capture timestamp) and falling through the stages in the
source's early-return order. -/
def extractYear (now : Int) (file : MediaFile) : Int :=
  match file.metadata with
  | none => extractYearStage2 now file
  | some md =>
    match extractPhotoTakenTimestamp now md with
    | none => extractYearStage2 now file
    | some ts =>
      let y := epochToUTCYear ts
      if isValidYear now y then y else extractYearStage2 now file

example : epochToUTCYear 0 = 1970 := by decide
example : epochToUTCYear 1767225600 = 2026 := by decide
example : epochToUTCYear 1830211200 = 2027 := by decide
example : epochToUTCYear 631152000 = 1990 := by decide
example : epochToUTCYear 631151999 = 1989 := by decide
example : findDateYear (s2l "2021-01-01.jpg") = some 2021 := by decide
example : findDateYear (s2l "IMG20211231.jpg") = some 2021 := by decide
example : findDateYear (s2l "IMG_1234.jpg") = none := by decide
example : matchYearFolder (s2l "Photos from 2019") = some 2019 := by decide
example : matchYearFolder (s2l "Vacation 2019") = none := by decide

/-- The capture-timestamp source yields no valid year for this file (absent
metadata, rejected timestamp, or out-of-range year). -/
def captureYearMiss (now : Int) (file : MediaFile) : Prop :=
  ∀ md ts, file.metadata = some md → extractPhotoTakenTimestamp now md = some ts →
    isValidYear now (epochToUTCYear ts) = false

/-- The creation-timestamp source yields no valid year for this file. -/
def creationYearMiss (now : Int) (file : MediaFile) : Prop :=
  ∀ md ts, file.metadata = some md → extractCreationTimestamp now md = some ts →
    isValidYear now (epochToUTCYear ts) = false

/-- The filename date pattern yields no valid year for this file. -/
def filenameYearMiss (now : Int) (file : MediaFile) : Prop :=
  ∀ y, findDateYear file.filename = some y → isValidYear now (y : Int) = false

/-- The source-folder pattern yields no valid year for this file. -/
def folderYearMiss (now : Int) (file : MediaFile) : Prop :=
  ∀ y, matchYearFolder file.sourceFolder = some y → isValidYear now (y : Int) = false

/-- The filesystem mtime yields no valid year for this file. -/
def mtimeYearMiss (now : Int) (file : MediaFile) : Prop :=
  ∀ m, file.statMtime = some m → isValidYear now (epochToUTCYear m) = false

theorem extractYear_capture_hit (now : Int) (file : MediaFile) (md : GoogleMetadata) (ts : Int)
    (h1 : file.metadata = some md) (h2 : extractPhotoTakenTimestamp now md = some ts)
    (h3 : isValidYear now (epochToUTCYear ts) = true) :
    extractYear now file = epochToUTCYear ts := by
  simp [extractYear, h1, h2, h3]

theorem extractYear_capture_miss (now : Int) (file : MediaFile)
    (h : captureYearMiss now file) :
    extractYear now file = extractYearStage2 now file := by
  rcases hmd : file.metadata with _ | md
  · simp [extractYear, hmd]
  · rcases hpt : extractPhotoTakenTimestamp now md with _ | ts
    · simp [extractYear, hmd, hpt]
    · have hinv := h md ts hmd hpt
      simp [extractYear, hmd, hpt, hinv]

theorem stage2_creation_hit (now : Int) (file : MediaFile) (md : GoogleMetadata) (ts : Int)
    (h1 : file.metadata = some md) (h2 : extractCreationTimestamp now md = some ts)
    (h3 : isValidYear now (epochToUTCYear ts) = true) :
    extractYearStage2 now file = epochToUTCYear ts := by
  simp [extractYearStage2, h1, h2, h3]

theorem stage2_creation_miss (now : Int) (file : MediaFile)
    (h : creationYearMiss now file) :
    extractYearStage2 now file = extractYearStage3 now file := by
  rcases hmd : file.metadata with _ | md
  · simp [extractYearStage2, hmd]
  · rcases hct : extractCreationTimestamp now md with _ | ts
    · simp [extractYearStage2, hmd, hct]
    · have hinv := h md ts hmd hct
      simp [extractYearStage2, hmd, hct, hinv]

theorem stage3_filename_hit (now : Int) (file : MediaFile) (y : Nat)
    (h1 : findDateYear file.filename = some y) (h2 : isValidYear now (y : Int) = true) :
    extractYearStage3 now file = (y : Int) := by
  simp [extractYearStage3, h1, h2]

theorem stage3_filename_miss (now : Int) (file : MediaFile)
    (h : filenameYearMiss now file) :
    extractYearStage3 now file = extractYearStage4 now file := by
  rcases hf : findDateYear file.filename with _ | y
  · simp [extractYearStage3, hf]
  · have hinv := h y hf
    simp [extractYearStage3, hf, hinv]

theorem stage4_folder_hit (now : Int) (file : MediaFile) (y : Nat)
    (h1 : matchYearFolder file.sourceFolder = some y) (h2 : isValidYear now (y : Int) = true) :
    extractYearStage4 now file = (y : Int) := by
  simp [extractYearStage4, h1, h2]

theorem stage4_folder_miss (now : Int) (file : MediaFile)
    (h : folderYearMiss now file) :
    extractYearStage4 now file = extractYearStage5 now file := by
  rcases hf : matchYearFolder file.sourceFolder with _ | y
  · simp [extractYearStage4, hf]
  · have hinv := h y hf
    simp [extractYearStage4, hf, hinv]

theorem stage5_mtime_hit (now : Int) (file : MediaFile) (m : Int)
    (h1 : file.statMtime = some m) (h2 : isValidYear now (epochToUTCYear m) = true) :
    extractYearStage5 now file = epochToUTCYear m := by
  simp [extractYearStage5, h1, h2]

theorem stage5_mtime_miss (now : Int) (file : MediaFile)
    (h : mtimeYearMiss now file) :
    extractYearStage5 now file = -1 := by
  rcases hm : file.statMtime with _ | m
  · simp [extractYearStage5, hm]
  · have hinv := h m hm
    simp [extractYearStage5, hm, hinv]

/-- C2 (amended): year resolution follows the cascade in strict priority order
— metadata capture timestamp, metadata creation timestamp, filename date
pattern, "Photos from YYYY" folder, filesystem mtime, each source winning
exactly when every earlier source missed — where the two metadata-timestamp
sources yield a year only if the timestamp itself passes the
[MIN_TIMESTAMP, now + 31536000] check of the extractors (so a capture
timestamp whose year is in [1990, currentYear+1] but which lies more than 365
days in the future is skipped), and every source's year must lie in
[1990, currentYear+1].  In particular an accepted capture timestamp beats a
filename date pattern, and a valid filename year beats any conflicting
"Photos from YYYY" folder. -/
theorem C2_extractYear_cascade (now : Int) (file : MediaFile) :
    (∀ md ts, file.metadata = some md → extractPhotoTakenTimestamp now md = some ts →
      isValidYear now (epochToUTCYear ts) = true →
      extractYear now file = epochToUTCYear ts) ∧
    (captureYearMiss now file →
      ∀ md ts, file.metadata = some md → extractCreationTimestamp now md = some ts →
        isValidYear now (epochToUTCYear ts) = true →
        extractYear now file = epochToUTCYear ts) ∧
    (captureYearMiss now file → creationYearMiss now file →
      ∀ y, findDateYear file.filename = some y → isValidYear now (y : Int) = true →
        extractYear now file = (y : Int)) ∧
    (captureYearMiss now file → creationYearMiss now file → filenameYearMiss now file →
      ∀ y, matchYearFolder file.sourceFolder = some y → isValidYear now (y : Int) = true →
        extractYear now file = (y : Int)) ∧
    (captureYearMiss now file → creationYearMiss now file → filenameYearMiss now file →
      folderYearMiss now file →
      ∀ m, file.statMtime = some m → isValidYear now (epochToUTCYear m) = true →
        extractYear now file = epochToUTCYear m) ∧
    (captureYearMiss now file → creationYearMiss now file → filenameYearMiss now file →
      folderYearMiss now file → mtimeYearMiss now file →
      extractYear now file = -1) := by
  refine ⟨?_, ?_, ?_, ?_, ?_, ?_⟩
  · intro md ts h1 h2 h3
    exact extractYear_capture_hit now file md ts h1 h2 h3
  · intro hc md ts h1 h2 h3
    rw [extractYear_capture_miss now file hc]
    exact stage2_creation_hit now file md ts h1 h2 h3
  · intro hc hcr y h1 h2
    rw [extractYear_capture_miss now file hc, stage2_creation_miss now file hcr]
    exact stage3_filename_hit now file y h1 h2
  · intro hc hcr hf y h1 h2
    rw [extractYear_capture_miss now file hc, stage2_creation_miss now file hcr,
      stage3_filename_miss now file hf]
    exact stage4_folder_hit now file y h1 h2
  · intro hc hcr hf hfl m h1 h2
    rw [extractYear_capture_miss now file hc, stage2_creation_miss now file hcr,
      stage3_filename_miss now file hf, stage4_folder_miss now file hfl]
    exact stage5_mtime_hit now file m h1 h2
  · intro hc hcr hf hfl hm
    rw [extractYear_capture_miss now file hc, stage2_creation_miss now file hcr,
      stage3_filename_miss now file hf, stage4_folder_miss now file hfl]
    exact stage5_mtime_miss now file hm

/-- A concrete item used to exercise the year cascade: capture timestamp
2021-01-01T00:00:00Z, a conflicting 2019 filename date pattern, and a
conflicting "Photos from 2018" folder. -/
def cascadeWitnessFile : MediaFile :=
  { originalPath := s2l "/staging/2019-05-05.jpg",
    filename := s2l "2019-05-05.jpg",
    sourceFolder := s2l "Photos from 2018",
    metadata := some { photoTakenTime := some 1609459200, creationTime := none },
    statMtime := none,
    processedPaths := { byYear := none, byAlbum := none },
    status := ProcessingStatus.pending,
    error := none }

theorem C2_extractYear_cascade_witness :
    extractYear 1767225600 cascadeWitnessFile = 2021 := by
  have h := (C2_extractYear_cascade 1767225600 cascadeWitnessFile).1
    { photoTakenTime := some 1609459200, creationTime := none } 1609459200
    rfl (by decide) (by decide)
  rw [h]
  decide

/-- C2 as literally stated is false on the code: at now = 2026-01-01T00:00:00Z
(currentYear 2026), an item whose metadata capture timestamp is
2027-12-31T00:00:00Z — a source that yields the year 2027, inside
[1990, currentYear+1] — and whose filename matches the date pattern 2021-01-01
resolves to 2021, not 2027: the cascade did not stop at the first source
yielding a year in [1990, currentYear+1], because the capture timestamp is
first filtered against [MIN_TIMESTAMP, now + 31536000] and 2027-12-31 is more
than 365 days after `now`. -/
theorem C2_extractYear_cascade_counterexample :
    (1990 ≤ epochToUTCYear 1830211200 ∧
      epochToUTCYear 1830211200 ≤ epochToUTCYear 1767225600 + 1) ∧
    extractYear 1767225600
      { originalPath := s2l "/staging/2021-01-01.jpg",
        filename := s2l "2021-01-01.jpg",
        sourceFolder := [],
        metadata := some { photoTakenTime := some 1830211200, creationTime := none },
        statMtime := none,
        processedPaths := { byYear := none, byAlbum := none },
        status := ProcessingStatus.pending,
        error := none } = 2021 ∧
    (2021 : Int) ≠ epochToUTCYear 1830211200 := by
  decide

theorem extractPhotoTaken_iff (now t : Int) (md : GoogleMetadata) :
    extractPhotoTakenTimestamp now md = some t ↔
      md.photoTakenTime = some t ∧ isValidTimestamp now t = true := by
  rcases hp : md.photoTakenTime with _ | t0
  · simp [extractPhotoTakenTimestamp, hp]
  · by_cases hv : isValidTimestamp now t0 = true
    · simp [extractPhotoTakenTimestamp, hp, hv]
      intro h
      subst h
      exact hv
    · have hvf : isValidTimestamp now t0 = false := by simpa using hv
      simp [extractPhotoTakenTimestamp, hp, hvf]
      intro h
      subst h
      simp [hvf]

theorem extractCreation_iff (now t : Int) (md : GoogleMetadata) :
    extractCreationTimestamp now md = some t ↔
      md.creationTime = some t ∧ isValidTimestamp now t = true := by
  rcases hp : md.creationTime with _ | t0
  · simp [extractCreationTimestamp, hp]
  · by_cases hv : isValidTimestamp now t0 = true
    · simp [extractCreationTimestamp, hp, hv]
      intro h
      subst h
      exact hv
    · have hvf : isValidTimestamp now t0 = false := by simpa using hv
      simp [extractCreationTimestamp, hp, hvf]
      intro h
      subst h
      simp [hvf]

/-- C3 (amended): the metadata timestamp extractors accept a timestamp t iff
MIN_TIMESTAMP ≤ t ≤ now + 31536000, i.e. t lies in [1990-01-01, now + 365
days] — not iff 1990 ≤ year(t) ≤ currentYear+1, which is a strictly weaker
condition at the upper end; a rejected timestamp yields null and the year
cascade falls through past the capture-timestamp source. -/
theorem C3_timestamp_acceptance (now t : Int) (md : GoogleMetadata) :
    (extractPhotoTakenTimestamp now md = some t ↔
      md.photoTakenTime = some t ∧ MIN_TIMESTAMP ≤ t ∧ t ≤ now + 31536000) ∧
    (extractCreationTimestamp now md = some t ↔
      md.creationTime = some t ∧ MIN_TIMESTAMP ≤ t ∧ t ≤ now + 31536000) ∧
    (isValidTimestamp now t = true ↔ MIN_TIMESTAMP ≤ t ∧ t ≤ now + 31536000) ∧
    (∀ file : MediaFile, file.metadata = some md → md.photoTakenTime = some t →
      isValidTimestamp now t = false →
      extractYear now file = extractYearStage2 now file) := by
  have hbounds : isValidTimestamp now t = true ↔ MIN_TIMESTAMP ≤ t ∧ t ≤ now + 31536000 := by
    simp [isValidTimestamp, getMaxTimestamp]
  refine ⟨?_, ?_, hbounds, ?_⟩
  · rw [extractPhotoTaken_iff, hbounds]
  · rw [extractCreation_iff, hbounds]
  · intro file h1 h2 h3
    apply extractYear_capture_miss
    intro md2 ts hmd2 hext
    rw [h1] at hmd2
    have hmd2e : md = md2 := by simpa using hmd2
    subst hmd2e
    rw [extractPhotoTaken_iff] at hext
    rw [h2] at hext
    have hte : t = ts := by simpa using hext.1
    subst hte
    rw [h3] at hext
    exact absurd hext.2 (by simp)

theorem C3_timestamp_acceptance_witness :
    extractPhotoTakenTimestamp 1767225600
      { photoTakenTime := some 1609459200, creationTime := none } = some 1609459200 ∧
    extractPhotoTakenTimestamp 1767225600
      { photoTakenTime := some 536457600, creationTime := none } = none := by
  constructor
  · exact (C3_timestamp_acceptance 1767225600 1609459200
      { photoTakenTime := some 1609459200, creationTime := none }).1.mpr
      ⟨rfl, by decide, by decide⟩
  · rcases hq : extractPhotoTakenTimestamp 1767225600
        { photoTakenTime := some 536457600, creationTime := none } with _ | t
    · rfl
    · have := (C3_timestamp_acceptance 1767225600 t
        { photoTakenTime := some 536457600, creationTime := none }).1.mp hq
      have ht : t = 536457600 := by
        have := this.1
        simpa using this.symm
      subst ht
      exact absurd this.2.1 (by decide)

/-- C3 as literally stated is false on the code: at now = 2026-01-01T00:00:00Z
the timestamp 1830211200 (2027-12-31T00:00:00Z) has UTC year 2027, inside
[1990, currentYear+1] = [1990, 2027], yet the capture-timestamp extractor
rejects it (it exceeds now + 31536000 = 2027-01-01), so "accepted iff
1990 ≤ year(t) ≤ currentYear+1" does not hold. -/
theorem C3_timestamp_acceptance_counterexample :
    1990 ≤ epochToUTCYear 1830211200 ∧
    epochToUTCYear 1830211200 ≤ epochToUTCYear 1767225600 + 1 ∧
    extractPhotoTakenTimestamp 1767225600
      { photoTakenTime := some 1830211200, creationTime := none } = none := by
  decide

/-! ## Unique-path allocation and organization
(src/phases/4-organization.ts, src/utils/file-utils.ts) -/

/-- Whether `pat` is an initial segment of `l` (String.startsWith). -/
def startsWithL : List Char → List Char → Bool
  | _, [] => true
  | [], _ :: _ => false
  | c :: rest, p :: ps => c == p && startsWithL rest ps

/-- Whether `pat` occurs as a contiguous substring of `l`
(JavaScript String.includes). -/
def hasSubstr (l pat : List Char) : Bool :=
  match l with
  | [] => startsWithL [] pat
  | c :: rest => startsWithL (c :: rest) pat || hasSubstr rest pat

/-- Decimal representation of a natural number (JavaScript number-to-string
for the suffix index). -/
def natChars (n : Nat) : List Char := (Nat.repr n).data

/-- `path.extname` applied to a plain basename: the suffix from the last dot
on, empty when there is no dot or the only dot is the leading character of a
dotfile. -/
def pathExtname (filename : List Char) : List Char :=
  match spanP (fun c => !(c == '.')) filename.reverse with
  | (_, []) => []
  | (revBody, _ :: revStem) =>
    if revStem = [] then [] else '.' :: revBody.reverse

/-- `path.basename(filename, ext)` as used in copyToUniquePath, where `ext` is
the `path.extname` of the same filename (so always a suffix): the filename
with that suffix removed. -/
def pathBasenameMinusExt (filename ext : List Char) : List Char :=
  filename.take (filename.length - ext.length)

/-- `path.join(dir, name)` on a normalized directory and a plain name. -/
def pathJoin (dir name : List Char) : List Char := dir ++ '/' :: name

/-- `MAX_UNIQUE_FILENAME_ATTEMPTS` (src/utils/file-utils.ts). -/
def MAX_UNIQUE_FILENAME_ATTEMPTS : Nat := 10000

/-- The materialization method reported by the allocator. -/
inductive Method
  | hardlink
  | copy
deriving DecidableEq

/-- A thrown Node `fs` error: its optional `code` and its `message`. -/
structure FsError where
  code : Option (List Char)
  message : List Char
deriving DecidableEq

/-- The filesystem oracle: the outcome of each `fs` call the allocator can
make.  `linkError source target = none` models a successful
`fs.link(source, target)`; `some e` models the call throwing `e`.
`copyError` likewise models
`fs.copy(source, target, { preserveTimestamps: true, overwrite: false,
errorOnExist: true })` — the non-overwriting, timestamp-preserving copy. -/
structure FsBehavior where
  linkError : List Char → List Char → Option FsError
  copyError : List Char → List Char → Option FsError

/-- Result type of createHardLinkOrCopy (src/utils/file-utils.ts). -/
inductive LinkCopyResult
  | success (m : Method)
  | failure (code : Option (List Char)) (message : List Char)
deriving DecidableEq

/-- `createHardLinkOrCopy` (src/utils/file-utils.ts): try a hard link; on any
link error fall back to a non-overwriting copy when permitted, reporting the
copy error otherwise the link error. -/
def createHardLinkOrCopy (fsb : FsBehavior) (source target : List Char)
    (fallbackToCopy : Bool) : LinkCopyResult :=
  match fsb.linkError source target with
  | none => LinkCopyResult.success Method.hardlink
  | some linkErr =>
    if fallbackToCopy then
      match fsb.copyError source target with
      | none => LinkCopyResult.success Method.copy
      | some copyErr => LinkCopyResult.failure copyErr.code copyErr.message
    else LinkCopyResult.failure linkErr.code linkErr.message

/-- The already-exists test of copyToUniquePath (src/phases/4-organization.ts):
`err.code === 'EEXIST' || err.message.includes('already exists')`. -/
def isAlreadyExistsCondition (code : Option (List Char)) (message : List Char) : Bool :=
  code == some (s2l "EEXIST") || hasSubstr message (s2l "already exists")

/-- The candidate filename of attempt `k` in copyToUniquePath:
`base + (attempt === 0 ? '' : '_' + (attempt + 1)) + ext`. -/
def uniqueCandidateName (base ext : List Char) (attempt : Nat) : List Char :=
  base ++ (if attempt = 0 then [] else '_' :: natChars (attempt + 1)) ++ ext

/-- Outcome of one iteration of the copyToUniquePath loop body. -/
inductive AttemptOutcome
  | success (target : List Char) (m : Method)
  | nextSuffix
  | failure (message : List Char)
deriving DecidableEq

/-- One iteration of the copyToUniquePath loop (src/phases/4-organization.ts)
at a given target, flattening the try/catch control flow:

* hard-link branch — `createHardLinkOrCopy`; on success return; on a failure
  meeting the already-exists condition continue with the next suffix;
  otherwise the code throws `new Error(result.errorMessage || 'Failed to
  create hard link or copy')`, which its own catch block then inspects:
  a message containing 'Source and destination must not be the same' is
  returned as success, a message containing 'already exists' continues
  (unreachable here, the condition was already tested), anything else
  propagates;
* copy branch — a resolved-source-equals-resolved-target pair is trivial
  success before any copy (path.resolve is modelled as the identity on the
  already-absolute normalized paths in play); then `fs.copy` with
  error-on-exist, whose error the catch block inspects in the same order. -/
def attemptStep (fsb : FsBehavior) (useHardLinks fallbackToCopy : Bool)
    (source target : List Char) : AttemptOutcome :=
  if useHardLinks then
    match createHardLinkOrCopy fsb source target fallbackToCopy with
    | LinkCopyResult.success m => AttemptOutcome.success target m
    | LinkCopyResult.failure code msg =>
      if isAlreadyExistsCondition code msg then AttemptOutcome.nextSuffix
      else
        let thrownMsg := if msg = [] then s2l "Failed to create hard link or copy" else msg
        if hasSubstr thrownMsg (s2l "Source and destination must not be the same") then
          AttemptOutcome.success target Method.hardlink
        else if hasSubstr thrownMsg (s2l "already exists") then AttemptOutcome.nextSuffix
        else AttemptOutcome.failure thrownMsg
  else
    if source = target then AttemptOutcome.success target Method.copy
    else
      match fsb.copyError source target with
      | none => AttemptOutcome.success target Method.copy
      | some e =>
        if hasSubstr e.message (s2l "Source and destination must not be the same") then
          AttemptOutcome.success target Method.copy
        else if isAlreadyExistsCondition e.code e.message then AttemptOutcome.nextSuffix
        else AttemptOutcome.failure e.message

/-- The exhaustion error of copyToUniquePath. -/
def exhaustionMessage (filename : List Char) : List Char :=
  s2l "Could not generate unique filename for " ++ filename ++
    s2l " after 10000 attempts"

/-- The attempt loop of copyToUniquePath: `attempt` is the current index,
`remaining` the number of attempts left out of
`MAX_UNIQUE_FILENAME_ATTEMPTS`. -/
def uniquePathLoop (fsb : FsBehavior) (useHardLinks fallbackToCopy : Bool)
    (source targetDir base ext filename : List Char) :
    Nat → Nat → Except (List Char) (List Char × Method)
  | _, 0 => Except.error (exhaustionMessage filename)
  | attempt, remaining + 1 =>
    let target := pathJoin targetDir (uniqueCandidateName base ext attempt)
    match attemptStep fsb useHardLinks fallbackToCopy source target with
    | AttemptOutcome.success t m => Except.ok (t, m)
    | AttemptOutcome.failure msg => Except.error msg
    | AttemptOutcome.nextSuffix =>
      uniquePathLoop fsb useHardLinks fallbackToCopy source targetDir base ext filename
        (attempt + 1) remaining

/-- The options record of copyToUniquePath with its defaults
`{ useHardLinks = false, fallbackToCopy = true }`. -/
structure CopyOptions where
  useHardLinks : Bool := false
  fallbackToCopy : Bool := true
deriving DecidableEq

/-- `copyToUniquePath` (src/phases/4-organization.ts): try
`basename<ext>`, `basename_2<ext>`, `basename_3<ext>`, … up to
`MAX_UNIQUE_FILENAME_ATTEMPTS`, with the per-attempt behavior of
`attemptStep`; exhausting all attempts is an error for the item. -/
def copyToUniquePath (fsb : FsBehavior) (source targetDir filename : List Char)
    (options : CopyOptions) : Except (List Char) (List Char × Method) :=
  let ext := pathExtname filename
  let base := pathBasenameMinusExt filename ext
  uniquePathLoop fsb options.useHardLinks options.fallbackToCopy source targetDir base ext
    filename 0 MAX_UNIQUE_FILENAME_ATTEMPTS

/-- The full target path of attempt `k`. -/
def candTarget (targetDir base ext : List Char) (k : Nat) : List Char :=
  pathJoin targetDir (uniqueCandidateName base ext k)

theorem uniquePathLoop_success (fsb : FsBehavior) (uh fb : Bool)
    (source targetDir base ext filename : List Char) (t : List Char) (m : Method) :
    ∀ k a r, (∀ j, j < k →
        attemptStep fsb uh fb source (candTarget targetDir base ext (a + j))
          = AttemptOutcome.nextSuffix) →
      attemptStep fsb uh fb source (candTarget targetDir base ext (a + k))
        = AttemptOutcome.success t m →
      k < r →
      uniquePathLoop fsb uh fb source targetDir base ext filename a r = Except.ok (t, m) := by
  intro k
  induction k with
  | zero =>
    intro a r hpre hhit hlt
    rcases r with _ | r2
    · omega
    · simp only [Nat.add_zero] at hhit
      simp only [candTarget] at hhit
      simp [uniquePathLoop, hhit]
  | succ k2 ih =>
    intro a r hpre hhit hlt
    rcases r with _ | r2
    · omega
    · have h0 := hpre 0 (by omega)
      simp only [Nat.add_zero] at h0
      have hrec := ih (a + 1) r2
        (fun j hj => by
          have := hpre (j + 1) (by omega)
          simpa [Nat.add_assoc, Nat.add_comm 1 j] using this)
        (by simpa [Nat.add_assoc, Nat.add_comm 1 k2] using hhit)
        (by omega)
      simp only [candTarget] at h0
      simp [uniquePathLoop, h0, hrec]

theorem uniquePathLoop_failure (fsb : FsBehavior) (uh fb : Bool)
    (source targetDir base ext filename : List Char) (msg : List Char) :
    ∀ k a r, (∀ j, j < k →
        attemptStep fsb uh fb source (candTarget targetDir base ext (a + j))
          = AttemptOutcome.nextSuffix) →
      attemptStep fsb uh fb source (candTarget targetDir base ext (a + k))
        = AttemptOutcome.failure msg →
      k < r →
      uniquePathLoop fsb uh fb source targetDir base ext filename a r
        = Except.error msg := by
  intro k
  induction k with
  | zero =>
    intro a r hpre hhit hlt
    rcases r with _ | r2
    · omega
    · simp only [Nat.add_zero] at hhit
      simp only [candTarget] at hhit
      simp [uniquePathLoop, hhit]
  | succ k2 ih =>
    intro a r hpre hhit hlt
    rcases r with _ | r2
    · omega
    · have h0 := hpre 0 (by omega)
      simp only [Nat.add_zero] at h0
      have hrec := ih (a + 1) r2
        (fun j hj => by
          have := hpre (j + 1) (by omega)
          simpa [Nat.add_assoc, Nat.add_comm 1 j] using this)
        (by simpa [Nat.add_assoc, Nat.add_comm 1 k2] using hhit)
        (by omega)
      simp only [candTarget] at h0
      simp [uniquePathLoop, h0, hrec]

theorem uniquePathLoop_exhaust (fsb : FsBehavior) (uh fb : Bool)
    (source targetDir base ext filename : List Char) :
    ∀ r a, (∀ j, j < r →
        attemptStep fsb uh fb source (candTarget targetDir base ext (a + j))
          = AttemptOutcome.nextSuffix) →
      uniquePathLoop fsb uh fb source targetDir base ext filename a r
        = Except.error (exhaustionMessage filename) := by
  intro r
  induction r with
  | zero =>
    intro a hpre
    simp [uniquePathLoop]
  | succ r2 ih =>
    intro a hpre
    have h0 := hpre 0 (by omega)
    simp only [Nat.add_zero] at h0
    have hrec := ih (a + 1) (fun j hj => by
      have := hpre (j + 1) (by omega)
      simpa [Nat.add_assoc, Nat.add_comm 1 j] using this)
    simp only [candTarget] at h0
    simp [uniquePathLoop, h0, hrec]

theorem attemptStep_copy_nextSuffix_iff (fsb : FsBehavior) (fb : Bool)
    (source target : List Char) :
    attemptStep fsb false fb source target = AttemptOutcome.nextSuffix ↔
      source ≠ target ∧ ∃ e, fsb.copyError source target = some e ∧
        hasSubstr e.message (s2l "Source and destination must not be the same") = false ∧
        isAlreadyExistsCondition e.code e.message = true := by
  by_cases hst : source = target
  · simp [attemptStep, hst]
  · rcases hce : fsb.copyError source target with _ | e
    · simp [attemptStep, hst, hce]
    · by_cases hsame : hasSubstr e.message
          (s2l "Source and destination must not be the same") = true
      · simp [attemptStep, hst, hce, hsame]
      · have hsf : hasSubstr e.message
            (s2l "Source and destination must not be the same") = false := by
          simpa using hsame
        by_cases hex : isAlreadyExistsCondition e.code e.message = true
        · simp [attemptStep, hst, hce, hsf, hex]
        · have hexf : isAlreadyExistsCondition e.code e.message = false := by
            simpa using hex
          simp [attemptStep, hst, hce, hsf, hexf]

theorem attemptStep_copy_success_char (fsb : FsBehavior) (fb : Bool)
    (source target t : List Char) (m : Method)
    (h : attemptStep fsb false fb source target = AttemptOutcome.success t m) :
    t = target ∧ m = Method.copy ∧
      (source = target ∨ fsb.copyError source target = none ∨
        ∃ e, fsb.copyError source target = some e ∧
          hasSubstr e.message (s2l "Source and destination must not be the same") = true) := by
  by_cases hst : source = target
  · simp [attemptStep, hst] at h
    exact ⟨h.1.symm, h.2.symm, Or.inl hst⟩
  · rcases hce : fsb.copyError source target with _ | e
    · simp [attemptStep, hst, hce] at h
      exact ⟨h.1.symm, h.2.symm, Or.inr (Or.inl rfl)⟩
    · by_cases hsame : hasSubstr e.message
          (s2l "Source and destination must not be the same") = true
      · simp [attemptStep, hst, hce, hsame] at h
        exact ⟨h.1.symm, h.2.symm, Or.inr (Or.inr ⟨e, rfl, hsame⟩)⟩
      · have hsf : hasSubstr e.message
            (s2l "Source and destination must not be the same") = false := by
          simpa using hsame
        by_cases hex : isAlreadyExistsCondition e.code e.message = true
        · simp [attemptStep, hst, hce, hsf, hex] at h
        · have hexf : isAlreadyExistsCondition e.code e.message = false := by
            simpa using hex
          simp [attemptStep, hst, hce, hsf, hexf] at h

theorem attemptStep_copy_failure_char (fsb : FsBehavior) (fb : Bool)
    (source target msg : List Char)
    (h : attemptStep fsb false fb source target = AttemptOutcome.failure msg) :
    ∃ e, fsb.copyError source target = some e ∧ msg = e.message ∧
      isAlreadyExistsCondition e.code e.message = false ∧
      hasSubstr e.message (s2l "Source and destination must not be the same") = false := by
  by_cases hst : source = target
  · simp [attemptStep, hst] at h
  · rcases hce : fsb.copyError source target with _ | e
    · simp [attemptStep, hst, hce] at h
    · by_cases hsame : hasSubstr e.message
          (s2l "Source and destination must not be the same") = true
      · simp [attemptStep, hst, hce, hsame] at h
      · have hsf : hasSubstr e.message
            (s2l "Source and destination must not be the same") = false := by
          simpa using hsame
        by_cases hex : isAlreadyExistsCondition e.code e.message = true
        · simp [attemptStep, hst, hce, hsf, hex] at h
        · have hexf : isAlreadyExistsCondition e.code e.message = false := by
            simpa using hex
          simp [attemptStep, hst, hce, hsf, hexf] at h
          exact ⟨e, rfl, h.symm, hexf, hsf⟩

/-- C4 (amended): unique-path allocation tries target names in the exact order
`basename<ext>`, `basename_2<ext>`, `basename_3<ext>`, … up to 10,000
attempts, advancing to the next suffix exactly on an already-exists condition
(error code EEXIST or message containing 'already exists'); an error whose
message contains 'Source and destination must not be the same' is treated as
trivial success for the current candidate (the source already is the resolved
target), a condition the loop also short-circuits before copying; any other
error fails the item immediately; exhausting all 10,000 attempts raises a
fatal per-item error; files are materialized with a non-overwriting,
error-on-exist copy, so an existing file is never overwritten. -/
theorem C4_copyToUniquePath_allocation (fsb : FsBehavior) (opts : CopyOptions)
    (source targetDir filename base ext : List Char)
    (hext : ext = pathExtname filename)
    (hbase : base = pathBasenameMinusExt filename ext) :
    (∀ k t m, k < MAX_UNIQUE_FILENAME_ATTEMPTS →
      (∀ j, j < k → attemptStep fsb opts.useHardLinks opts.fallbackToCopy source
          (candTarget targetDir base ext j) = AttemptOutcome.nextSuffix) →
      attemptStep fsb opts.useHardLinks opts.fallbackToCopy source
          (candTarget targetDir base ext k) = AttemptOutcome.success t m →
      copyToUniquePath fsb source targetDir filename opts = Except.ok (t, m)) ∧
    (∀ k msg, k < MAX_UNIQUE_FILENAME_ATTEMPTS →
      (∀ j, j < k → attemptStep fsb opts.useHardLinks opts.fallbackToCopy source
          (candTarget targetDir base ext j) = AttemptOutcome.nextSuffix) →
      attemptStep fsb opts.useHardLinks opts.fallbackToCopy source
          (candTarget targetDir base ext k) = AttemptOutcome.failure msg →
      copyToUniquePath fsb source targetDir filename opts = Except.error msg) ∧
    ((∀ j, j < MAX_UNIQUE_FILENAME_ATTEMPTS →
        attemptStep fsb opts.useHardLinks opts.fallbackToCopy source
          (candTarget targetDir base ext j) = AttemptOutcome.nextSuffix) →
      copyToUniquePath fsb source targetDir filename opts
        = Except.error (exhaustionMessage filename)) ∧
    (uniqueCandidateName base ext 0 = base ++ ext ∧
      ∀ k, 1 ≤ k → uniqueCandidateName base ext k = base ++ '_' :: natChars (k + 1) ++ ext) ∧
    (opts.useHardLinks = false → ∀ target,
      (attemptStep fsb opts.useHardLinks opts.fallbackToCopy source target
          = AttemptOutcome.nextSuffix ↔
        source ≠ target ∧ ∃ e, fsb.copyError source target = some e ∧
          hasSubstr e.message (s2l "Source and destination must not be the same") = false ∧
          isAlreadyExistsCondition e.code e.message = true)) ∧
    (opts.useHardLinks = false → ∀ target t m,
      attemptStep fsb opts.useHardLinks opts.fallbackToCopy source target
          = AttemptOutcome.success t m →
      t = target ∧ m = Method.copy ∧
        (source = target ∨ fsb.copyError source target = none ∨
          ∃ e, fsb.copyError source target = some e ∧
            hasSubstr e.message (s2l "Source and destination must not be the same") = true)) := by
  have hunfold : copyToUniquePath fsb source targetDir filename opts
      = uniquePathLoop fsb opts.useHardLinks opts.fallbackToCopy source targetDir base ext
          filename 0 MAX_UNIQUE_FILENAME_ATTEMPTS := by
    rw [copyToUniquePath, ← hext, ← hbase]
  refine ⟨?_, ?_, ?_, ⟨by simp [uniqueCandidateName], ?_⟩, ?_, ?_⟩
  · intro k t m hk hpre hhit
    rw [hunfold]
    exact uniquePathLoop_success fsb _ _ source targetDir base ext filename t m k 0
      MAX_UNIQUE_FILENAME_ATTEMPTS
      (fun j hj => by simpa using hpre j hj) (by simpa using hhit) hk
  · intro k msg hk hpre hhit
    rw [hunfold]
    exact uniquePathLoop_failure fsb _ _ source targetDir base ext filename msg k 0
      MAX_UNIQUE_FILENAME_ATTEMPTS
      (fun j hj => by simpa using hpre j hj) (by simpa using hhit) hk
  · intro hpre
    rw [hunfold]
    exact uniquePathLoop_exhaust fsb _ _ source targetDir base ext filename
      MAX_UNIQUE_FILENAME_ATTEMPTS 0 (fun j hj => by simpa using hpre j hj)
  · intro k hk
    have : ¬(k = 0) := by omega
    simp [uniqueCandidateName, this]
  · intro hu target
    rw [hu]
    exact attemptStep_copy_nextSuffix_iff fsb opts.fallbackToCopy source target
  · intro hu target t m h
    rw [hu] at h
    exact attemptStep_copy_success_char fsb opts.fallbackToCopy source target t m h

/-- An oracle for a target directory whose existing entries are exactly
`existing`: linking or copying onto an existing path throws EEXIST, any other
call succeeds. -/
def existsOracle (existing : List (List Char)) : FsBehavior :=
  { linkError := fun _ target =>
      if target ∈ existing then
        some { code := some (s2l "EEXIST"), message := s2l "EEXIST: file already exists" }
      else none,
    copyError := fun _ target =>
      if target ∈ existing then
        some { code := some (s2l "EEXIST"), message := s2l "EEXIST: file already exists" }
      else none }

theorem C4_copyToUniquePath_allocation_witness :
    copyToUniquePath (existsOracle [s2l "out/2021/photo.jpg"]) (s2l "/staging/photo.jpg")
        (s2l "out/2021") (s2l "photo.jpg") {}
      = Except.ok (s2l "out/2021/photo_2.jpg", Method.copy) ∧
    copyToUniquePath (existsOracle [s2l "out/2021/photo.jpg", s2l "out/2021/photo_2.jpg"])
        (s2l "/staging/photo.jpg") (s2l "out/2021") (s2l "photo.jpg") {}
      = Except.ok (s2l "out/2021/photo_3.jpg", Method.copy) := by
  constructor
  · exact (C4_copyToUniquePath_allocation (existsOracle [s2l "out/2021/photo.jpg"]) {}
      (s2l "/staging/photo.jpg") (s2l "out/2021") (s2l "photo.jpg")
      (s2l "photo") (s2l ".jpg") (by decide) (by decide)).1 1
      (s2l "out/2021/photo_2.jpg") Method.copy (by decide)
      (fun j hj => by
        interval_cases j
        · decide)
      (by decide)
  · exact (C4_copyToUniquePath_allocation
      (existsOracle [s2l "out/2021/photo.jpg", s2l "out/2021/photo_2.jpg"]) {}
      (s2l "/staging/photo.jpg") (s2l "out/2021") (s2l "photo.jpg")
      (s2l "photo") (s2l ".jpg") (by decide) (by decide)).1 2
      (s2l "out/2021/photo_3.jpg") Method.copy (by decide)
      (fun j hj => by
        interval_cases j
        · decide
        · decide)
      (by decide)

/-- An oracle reproducing the hard-link branch on a source that already is the
target: the link call fails with EEXIST and the fallback copy throws the
fs-extra same-file error. -/
def sameFileOracle : FsBehavior :=
  { linkError := fun _ _ =>
      some { code := some (s2l "EEXIST"), message := s2l "EEXIST: file already exists" },
    copyError := fun _ _ =>
      some { code := none, message := s2l "Source and destination must not be the same." } }

/-- C4 as literally stated is false on the code: with hard links enabled, an
attempt whose underlying error is NOT an already-exists condition (its code is
null and its message is 'Source and destination must not be the same.') does
not fail the allocation — copyToUniquePath returns success for that candidate
instead of failing immediately on this "other" error. -/
theorem C4_copyToUniquePath_allocation_counterexample :
    isAlreadyExistsCondition (none : Option (List Char))
        (s2l "Source and destination must not be the same.") = false ∧
    copyToUniquePath sameFileOracle (s2l "d/photo.jpg") (s2l "d") (s2l "photo.jpg")
        { useHardLinks := true, fallbackToCopy := true }
      = Except.ok (s2l "d/photo.jpg", Method.hardlink) := by
  constructor
  · decide
  · rfl

/-- `isAlbumFolder` (src/utils/path-utils.ts): nonempty and not a
"Photos from " year bucket. -/
def isAlbumFolder (folderName : List Char) : Bool :=
  !(folderName.isEmpty) && !(startsWithL folderName (s2l "Photos from "))

/-- Decimal representation of an integer (JavaScript `year.toString()`). -/
def intChars (i : Int) : List Char := (Int.repr i).data

/-- The counters of ProcessingStats (src/types/processing.ts) touched by the
verified stages. -/
structure ProcessingStats where
  processedFiles : Nat
  failedFiles : Nat
  exifFailures : Nat
  timestampFailures : Nat
deriving DecidableEq

/-- The configuration fields consumed by organizeFile. -/
structure OrganizeConfig where
  useHardLinks : Bool
  fallbackToCopy : Bool
  unknownYearFolder : List Char
deriving DecidableEq

/-- The year-directory name chosen by organizeFile:
`year === -1 ? config.output.unknownYearFolder : year.toString()`. -/
def yearFolderName (now : Int) (cfg : OrganizeConfig) (file : MediaFile) : List Char :=
  let year := extractYear now file
  if year = -1 then cfg.unknownYearFolder else intChars year

/-- `organizeFile` (src/phases/4-organization.ts): resolve the year, place the
file under the year directory via `copyToUniquePath` called with no options
(so the allocator's defaults apply), record the primary path; if the source
folder is album-classified, place a second copy under the album directory via
`copyToUniquePath` with the configured hard-link options, sourced from the
primary (year) path; on success mark completed, on any error mark failed and
record the message.  `fs.ensureDir` is a no-op in the model. -/
def organizeFile (fsb : FsBehavior) (now : Int) (cfg : OrganizeConfig)
    (byYearDir byAlbumDir : List Char) (file : MediaFile) (stats : ProcessingStats) :
    MediaFile × ProcessingStats :=
  let yearDir := pathJoin byYearDir (yearFolderName now cfg file)
  match copyToUniquePath fsb file.originalPath yearDir file.filename {} with
  | Except.error msg =>
    ({ file with status := ProcessingStatus.failed, error := some msg },
      { stats with failedFiles := stats.failedFiles + 1 })
  | Except.ok yearResult =>
    let file1 := { file with
      processedPaths := { file.processedPaths with byYear := some yearResult.1 } }
    if isAlbumFolder file.sourceFolder then
      let albumDir := pathJoin byAlbumDir file.sourceFolder
      match copyToUniquePath fsb yearResult.1 albumDir file.filename
          { useHardLinks := cfg.useHardLinks, fallbackToCopy := cfg.fallbackToCopy } with
      | Except.error msg =>
        ({ file1 with status := ProcessingStatus.failed, error := some msg },
          { stats with failedFiles := stats.failedFiles + 1 })
      | Except.ok albumResult =>
        ({ file1 with
            processedPaths := { file1.processedPaths with byAlbum := some albumResult.1 },
            status := ProcessingStatus.completed },
          { stats with processedFiles := stats.processedFiles + 1 })
    else
      ({ file1 with status := ProcessingStatus.completed },
        { stats with processedFiles := stats.processedFiles + 1 })

theorem uniquePathLoop_copy_method (fsb : FsBehavior) (fb : Bool)
    (source targetDir base ext filename : List Char) :
    ∀ r a t m, uniquePathLoop fsb false fb source targetDir base ext filename a r
      = Except.ok (t, m) → m = Method.copy := by
  intro r
  induction r with
  | zero =>
    intro a t m h
    simp [uniquePathLoop] at h
  | succ r2 ih =>
    intro a t m h
    simp only [uniquePathLoop] at h
    rcases hstep : attemptStep fsb false fb source
        (pathJoin targetDir (uniqueCandidateName base ext a)) with ⟨t2, m2⟩ | _ | msg
    · rw [hstep] at h
      simp only [Except.ok.injEq, Prod.mk.injEq] at h
      have := attemptStep_copy_success_char fsb fb source
        (pathJoin targetDir (uniqueCandidateName base ext a)) t2 m2 hstep
      rw [← h.2]
      exact this.2.1
    · rw [hstep] at h
      exact ih (a + 1) t m h
    · rw [hstep] at h
      exact absurd h (by simp)

/-- C9: the primary by-year materialization is always performed by the
allocator with no options — whose `useHardLinks` default is `false`, so it is
a non-overwriting copy and never a hard link, regardless of the
useHardLinks/fallbackToCopy configuration — while the configured
hard-link-then-copy-fallback policy governs only the secondary album
materialization, whose source is the by-year path. -/
theorem C9_primary_copy_never_hardlink (fsb : FsBehavior) (now : Int)
    (cfg : OrganizeConfig) (byYearDir byAlbumDir : List Char) (file : MediaFile)
    (stats : ProcessingStats) :
    (({} : CopyOptions).useHardLinks = false ∧ ({} : CopyOptions).fallbackToCopy = true) ∧
    (∀ (fsb2 : FsBehavior) (src dir name t : List Char) (m : Method),
      copyToUniquePath fsb2 src dir name {} = Except.ok (t, m) → m = Method.copy) ∧
    (∀ t m, copyToUniquePath fsb file.originalPath
        (pathJoin byYearDir (yearFolderName now cfg file)) file.filename {}
          = Except.ok (t, m) →
      (organizeFile fsb now cfg byYearDir byAlbumDir file stats).1.processedPaths.byYear
        = some t) ∧
    (∀ msg, copyToUniquePath fsb file.originalPath
        (pathJoin byYearDir (yearFolderName now cfg file)) file.filename {}
          = Except.error msg →
      (organizeFile fsb now cfg byYearDir byAlbumDir file stats).1.processedPaths.byYear
        = file.processedPaths.byYear ∧
      (organizeFile fsb now cfg byYearDir byAlbumDir file stats).1.status
        = ProcessingStatus.failed) ∧
    (isAlbumFolder file.sourceFolder = true → ∀ t m,
      copyToUniquePath fsb file.originalPath
        (pathJoin byYearDir (yearFolderName now cfg file)) file.filename {}
          = Except.ok (t, m) →
      (organizeFile fsb now cfg byYearDir byAlbumDir file stats).1.processedPaths.byAlbum
        = (match copyToUniquePath fsb t (pathJoin byAlbumDir file.sourceFolder) file.filename
              { useHardLinks := cfg.useHardLinks, fallbackToCopy := cfg.fallbackToCopy } with
          | Except.ok r => some r.1
          | Except.error _ => file.processedPaths.byAlbum)) ∧
    (isAlbumFolder file.sourceFolder = false →
      (organizeFile fsb now cfg byYearDir byAlbumDir file stats).1.processedPaths.byAlbum
        = file.processedPaths.byAlbum) := by
  refine ⟨⟨rfl, rfl⟩, ?_, ?_, ?_, ?_, ?_⟩
  · intro fsb2 src dir name t m h
    exact uniquePathLoop_copy_method fsb2 true src dir
      (pathBasenameMinusExt name (pathExtname name)) (pathExtname name) name
      MAX_UNIQUE_FILENAME_ATTEMPTS 0 t m h
  · intro t m h
    simp only [organizeFile]
    rw [h]
    by_cases hal : isAlbumFolder file.sourceFolder = true
    · simp only [hal]
      rcases ha : copyToUniquePath fsb t (pathJoin byAlbumDir file.sourceFolder) file.filename
          { useHardLinks := cfg.useHardLinks, fallbackToCopy := cfg.fallbackToCopy }
        with msg | ar
      · simp [ha]
      · simp [ha]
    · have half : isAlbumFolder file.sourceFolder = false := by simpa using hal
      simp [half]
  · intro msg h
    simp only [organizeFile]
    rw [h]
    simp
  · intro hal t m h
    simp only [organizeFile]
    rw [h]
    simp only [hal]
    rcases ha : copyToUniquePath fsb t (pathJoin byAlbumDir file.sourceFolder) file.filename
        { useHardLinks := cfg.useHardLinks, fallbackToCopy := cfg.fallbackToCopy }
      with msg2 | ar
    · simp [ha]
    · simp [ha]
  · intro hal
    simp only [organizeFile]
    rcases h : copyToUniquePath fsb file.originalPath
        (pathJoin byYearDir (yearFolderName now cfg file)) file.filename {} with msg | yr
    · simp [h]
    · simp [h, hal]

instance {e a : Type} [DecidableEq e] [DecidableEq a] : DecidableEq (Except e a)
  | Except.error e1, Except.error e2 =>
    if h : e1 = e2 then isTrue (congrArg Except.error h)
    else isFalse (fun hc => h ((Except.error.injEq e1 e2) ▸ hc))
  | Except.ok a1, Except.ok a2 =>
    if h : a1 = a2 then isTrue (congrArg Except.ok h)
    else isFalse (fun hc => h ((Except.ok.injEq a1 a2) ▸ hc))
  | Except.error _, Except.ok _ => isFalse (fun hc => Except.noConfusion hc)
  | Except.ok _, Except.error _ => isFalse (fun hc => Except.noConfusion hc)

/-- Item and config used to instantiate the organizer theorem. -/
def organizeWitnessFile : MediaFile :=
  { originalPath := s2l "/staging/img.jpg",
    filename := s2l "img.jpg",
    sourceFolder := s2l "Album X",
    metadata := some { photoTakenTime := some 1609459200, creationTime := none },
    statMtime := none,
    processedPaths := { byYear := none, byAlbum := none },
    status := ProcessingStatus.pending,
    error := none }

/-- A configuration with hard links enabled, to exercise that the primary
materialization still copies. -/
def organizeWitnessCfg : OrganizeConfig :=
  { useHardLinks := true, fallbackToCopy := true, unknownYearFolder := s2l "unknown" }

theorem C9_primary_copy_never_hardlink_witness :
    (organizeFile (existsOracle []) 1767225600 organizeWitnessCfg (s2l "out") (s2l "albums")
        organizeWitnessFile
        { processedFiles := 0, failedFiles := 0, exifFailures := 0, timestampFailures := 0 }
      ).1.processedPaths.byYear = some (s2l "out/2021/img.jpg") ∧
    Method.copy = Method.copy := by
  constructor
  · exact (C9_primary_copy_never_hardlink (existsOracle []) 1767225600 organizeWitnessCfg
      (s2l "out") (s2l "albums") organizeWitnessFile
      { processedFiles := 0, failedFiles := 0, exifFailures := 0, timestampFailures := 0 }).2.2.1
      (s2l "out/2021/img.jpg") Method.copy (by decide)
  · exact (C9_primary_copy_never_hardlink (existsOracle []) 1767225600 organizeWitnessCfg
      (s2l "out") (s2l "albums") organizeWitnessFile
      { processedFiles := 0, failedFiles := 0, exifFailures := 0, timestampFailures := 0 }).2.1
      (existsOracle []) (s2l "/staging/img.jpg") (s2l "out/2021") (s2l "img.jpg")
      (s2l "out/2021/img.jpg") Method.copy (by decide)

/-! ## Archive validation and extraction retry (src/phases/1-extraction.ts) -/

/-- `MAX_UNCOMPRESSED_SIZE = 500 * 1024 * 1024 * 1024` bytes. -/
def MAX_UNCOMPRESSED_SIZE : Nat := 500 * 1024 * 1024 * 1024

/-- `MAX_FILE_COUNT = 2_000_000`. -/
def MAX_FILE_COUNT : Nat := 2000000

/-- `MAX_COMPRESSION_RATIO = 100`. -/
def MAX_COMPRESSION_RATIO : Nat := 100

/-- Sizes declared by one central-directory entry of the archive. -/
structure ZipEntry where
  uncompressedSize : Nat
  compressedSize : Nat
deriving DecidableEq

/-- Why validation rejected the archive (the corresponding human-readable
`error` strings of the source are abstracted to their cause). -/
inductive ZipRejectReason
  | tooManyFiles
  | sizeExceeded
  | suspiciousRatio
deriving DecidableEq

/-- Outcome of `validateZipFile`: either acceptance or the first rejection
reason, together with the counters accumulated so far. -/
structure ZipValidationResult where
  valid : Bool
  fileCount : Nat
  uncompressedSize : Nat
  compressedSize : Nat
  reason : Option ZipRejectReason
deriving DecidableEq

/-- The per-entry loop of `validateZipFile` (src/phases/1-extraction.ts): for
each entry increment the count and both size totals, then abort with a
rejection as soon as the count exceeds `MAX_FILE_COUNT` or the uncompressed
total exceeds `MAX_UNCOMPRESSED_SIZE`; at the end of the entries reject when
the uncompressed/compressed ratio exceeds `MAX_COMPRESSION_RATIO` (the ratio
test `u / c > 100` with `c > 0`, stated exactly as `u > 100 * c`; a zero
compressed total yields ratio 0). -/
def validateZipEntries : List ZipEntry → Nat → Nat → Nat → ZipValidationResult
  | [], n, u, c =>
    if c > 0 ∧ u > MAX_COMPRESSION_RATIO * c then
      { valid := false, fileCount := n, uncompressedSize := u, compressedSize := c,
        reason := some ZipRejectReason.suspiciousRatio }
    else
      { valid := true, fileCount := n, uncompressedSize := u, compressedSize := c,
        reason := none }
  | e :: rest, n, u, c =>
    let n2 := n + 1
    let u2 := u + e.uncompressedSize
    let c2 := c + e.compressedSize
    if n2 > MAX_FILE_COUNT then
      { valid := false, fileCount := n2, uncompressedSize := u2, compressedSize := c2,
        reason := some ZipRejectReason.tooManyFiles }
    else if u2 > MAX_UNCOMPRESSED_SIZE then
      { valid := false, fileCount := n2, uncompressedSize := u2, compressedSize := c2,
        reason := some ZipRejectReason.sizeExceeded }
    else validateZipEntries rest n2 u2 c2

/-- `validateZipFile` on an archive whose central directory lists `entries`. -/
def validateZipFile (entries : List ZipEntry) : ZipValidationResult :=
  validateZipEntries entries 0 0 0

/-- The extraction attempt loop of `extractZipWithRetry`
(src/phases/1-extraction.ts).  `outcome k = none` models attempt `k`
succeeding; `some e` models it throwing the error message `e`.  Returns the
result, the number of `extract` calls performed, and the list of backoff
delays slept (in milliseconds), in order. -/
def extractRetryLoop (outcome : Nat → Option (List Char)) (retryDelay : Nat) :
    Nat → Nat → Except (List Char) Unit × Nat × List Nat
  | attempt, 0 =>
    match outcome attempt with
    | none => (Except.ok (), 1, [])
    | some e => (Except.error e, 1, [])
  | attempt, r + 1 =>
    match outcome attempt with
    | none => (Except.ok (), 1, [])
    | some _ =>
      let d := max retryDelay 100 * 2 ^ attempt
      let rec2 := extractRetryLoop outcome retryDelay (attempt + 1) r
      (rec2.1, rec2.2.1 + 1, d :: rec2.2.2)

/-- `extractZipWithRetry` (src/phases/1-extraction.ts): validate first — a
validation failure throws before any extraction attempt — then run the
attempt loop for `retries + 1` attempts (`attempt` ranges over
`0 … retries`). -/
def extractZipWithRetry (entries : List ZipEntry) (outcome : Nat → Option (List Char))
    (retries retryDelay : Nat) : Except (List Char) Unit × Nat × List Nat :=
  if (validateZipFile entries).valid = false then
    (Except.error (s2l "ZIP validation failed"), 0, [])
  else extractRetryLoop outcome retryDelay 0 retries

/-- Total declared uncompressed size of all entries. -/
def totalUncompressed (entries : List ZipEntry) : Nat :=
  (entries.map ZipEntry.uncompressedSize).sum

/-- Total declared compressed size of all entries. -/
def totalCompressed (entries : List ZipEntry) : Nat :=
  (entries.map ZipEntry.compressedSize).sum

theorem validateZipEntries_valid_iff : ∀ (entries : List ZipEntry) (n u c : Nat),
    n ≤ MAX_FILE_COUNT → u ≤ MAX_UNCOMPRESSED_SIZE →
    ((validateZipEntries entries n u c).valid = true ↔
      n + entries.length ≤ MAX_FILE_COUNT ∧
      u + totalUncompressed entries ≤ MAX_UNCOMPRESSED_SIZE ∧
      ¬(0 < c + totalCompressed entries ∧
        MAX_COMPRESSION_RATIO * (c + totalCompressed entries)
          < u + totalUncompressed entries)) := by
  intro entries
  induction entries with
  | nil =>
    intro n u c hn hu
    by_cases hr : 0 < c ∧ MAX_COMPRESSION_RATIO * c < u
    · simp [validateZipEntries, totalUncompressed, totalCompressed, hr, hn, hu]
    · simp [validateZipEntries, totalUncompressed, totalCompressed, hr, hn, hu]
  | cons e rest ih =>
    intro n u c hn hu
    by_cases h1 : n + 1 > MAX_FILE_COUNT
    · have hv : (validateZipEntries (e :: rest) n u c).valid = false := by
        simp [validateZipEntries, h1]
      constructor
      · intro h3
        rw [hv] at h3
        exact absurd h3 (by simp)
      · intro h3
        exfalso
        have := h3.1
        simp only [List.length_cons] at this
        omega
    · by_cases h2 : u + e.uncompressedSize > MAX_UNCOMPRESSED_SIZE
      · have hv : (validateZipEntries (e :: rest) n u c).valid = false := by
          simp [validateZipEntries, h1, h2]
        constructor
        · intro h3
          rw [hv] at h3
          exact absurd h3 (by simp)
        · intro h3
          exfalso
          have := h3.2.1
          simp only [totalUncompressed, List.map_cons, List.sum_cons, ← Nat.add_assoc] at this
          omega
      · have hrec := ih (n + 1) (u + e.uncompressedSize) (c + e.compressedSize)
          (by omega) (by omega)
        have hred : validateZipEntries (e :: rest) n u c
            = validateZipEntries rest (n + 1) (u + e.uncompressedSize) (c + e.compressedSize) := by
          simp [validateZipEntries, h1, h2]
        rw [hred]
        simp only [totalUncompressed, totalCompressed, List.map_cons, List.sum_cons,
          List.length_cons, ← Nat.add_assoc] at hrec ⊢
        rw [hrec]
        constructor
        · rintro ⟨ha, hb, hcc⟩
          exact ⟨by omega, hb, hcc⟩
        · rintro ⟨ha, hb, hcc⟩
          exact ⟨by omega, hb, hcc⟩

theorem validateZipEntries_early_abort : ∀ (entries rest : List ZipEntry) (n u c : Nat),
    (validateZipEntries entries n u c).valid = false →
    (validateZipEntries entries n u c).reason ≠ some ZipRejectReason.suspiciousRatio →
    validateZipEntries (entries ++ rest) n u c = validateZipEntries entries n u c := by
  intro entries
  induction entries with
  | nil =>
    intro rest n u c hv hr
    by_cases hrat : 0 < c ∧ MAX_COMPRESSION_RATIO * c < u
    · exact absurd (by simp [validateZipEntries, hrat]) hr
    · rw [validateZipEntries] at hv
      rw [if_neg hrat] at hv
      exact absurd hv (by simp)
  | cons e rest2 ih =>
    intro rest n u c hv hr
    by_cases h1 : n + 1 > MAX_FILE_COUNT
    · simp [validateZipEntries, h1]
    · by_cases h2 : u + e.uncompressedSize > MAX_UNCOMPRESSED_SIZE
      · simp [validateZipEntries, h1, h2]
      · have hred : validateZipEntries (e :: rest2) n u c
            = validateZipEntries rest2 (n + 1) (u + e.uncompressedSize)
                (c + e.compressedSize) := by
          simp [validateZipEntries, h1, h2]
        rw [hred] at hv hr
        have hred2 : validateZipEntries ((e :: rest2) ++ rest) n u c
            = validateZipEntries (rest2 ++ rest) (n + 1) (u + e.uncompressedSize)
                (c + e.compressedSize) := by
          simp [validateZipEntries, h1, h2]
        rw [hred2, hred]
        exact ih rest (n + 1) (u + e.uncompressedSize) (c + e.compressedSize) hv hr

/-- C6: archive validation rejects, before any extraction is attempted, every
archive whose entry count exceeds 2,000,000 or whose accumulated uncompressed
size exceeds 500 GiB (each checked incrementally per entry, aborting early —
a count/size rejection is independent of the entries after it), or whose
total uncompressed/compressed ratio exceeds 100:1 once all entries are
scanned; an archive within the count and size limits whose ratio is at most
100:1 passes; a validation failure makes extractZipWithRetry throw with zero
extraction attempts performed. -/
theorem C6_validateZipFile_limits (entries : List ZipEntry) :
    ((validateZipFile entries).valid = true ↔
      entries.length ≤ MAX_FILE_COUNT ∧
      totalUncompressed entries ≤ MAX_UNCOMPRESSED_SIZE ∧
      ¬(0 < totalCompressed entries ∧
        MAX_COMPRESSION_RATIO * totalCompressed entries < totalUncompressed entries)) ∧
    (∀ (rest : List ZipEntry) (n u c : Nat),
      (validateZipEntries entries n u c).valid = false →
      (validateZipEntries entries n u c).reason ≠ some ZipRejectReason.suspiciousRatio →
      validateZipEntries (entries ++ rest) n u c = validateZipEntries entries n u c) ∧
    (∀ (outcome : Nat → Option (List Char)) (retries retryDelay : Nat),
      (validateZipFile entries).valid = false →
      extractZipWithRetry entries outcome retries retryDelay
        = (Except.error (s2l "ZIP validation failed"), 0, [])) := by
  refine ⟨?_, ?_, ?_⟩
  · have h := validateZipEntries_valid_iff entries 0 0 0 (by simp [MAX_FILE_COUNT])
      (by simp [MAX_UNCOMPRESSED_SIZE])
    simpa [validateZipFile] using h
  · intro rest n u c hv hr
    exact validateZipEntries_early_abort entries rest n u c hv hr
  · intro outcome retries retryDelay hv
    simp [extractZipWithRetry, hv]

theorem C6_validateZipFile_limits_witness :
    (validateZipFile [ZipEntry.mk 1000 500, ZipEntry.mk 2000 100]).valid = true ∧
    extractZipWithRetry [ZipEntry.mk 10100 1]
        (fun _ => none) 2 1000
      = (Except.error (s2l "ZIP validation failed"), 0, []) := by
  constructor
  · exact (C6_validateZipFile_limits [ZipEntry.mk 1000 500, ZipEntry.mk 2000 100]).1.mpr
      (by decide)
  · exact (C6_validateZipFile_limits [ZipEntry.mk 10100 1]).2.2 (fun _ => none) 2 1000
      (by decide)

theorem extractRetryLoop_attempts_le (outcome : Nat → Option (List Char))
    (retryDelay : Nat) : ∀ r a, (extractRetryLoop outcome retryDelay a r).2.1 ≤ r + 1 := by
  intro r
  induction r with
  | zero =>
    intro a
    rcases h : outcome a with _ | e <;> simp [extractRetryLoop, h]
  | succ r2 ih =>
    intro a
    rcases h : outcome a with _ | e
    · simp [extractRetryLoop, h]
    · have := ih (a + 1)
      simp [extractRetryLoop, h]
      omega

theorem delayList_shift (D a n : Nat) :
    D * 2 ^ a :: (List.range n).map (fun i => D * 2 ^ (a + 1 + i))
      = (List.range (n + 1)).map (fun i => D * 2 ^ (a + i)) := by
  rw [List.range_succ_eq_map, List.map_cons, List.map_map]
  have hhead : D * 2 ^ a = D * 2 ^ (a + 0) := by simp
  have htail : (List.range n).map (fun i => D * 2 ^ (a + 1 + i))
      = (List.range n).map ((fun i => D * 2 ^ (a + i)) ∘ Nat.succ) := by
    apply List.map_congr_left
    intro i hi
    simp only [Function.comp, Nat.succ_eq_add_one]
    have hx : a + 1 + i = a + (i + 1) := by omega
    rw [hx]
  rw [hhead, htail]

theorem extractRetryLoop_all_fail (outcome : Nat → Option (List Char))
    (retryDelay : Nat) (errs : Nat → List Char) : ∀ r a,
    (∀ i, i ≤ r → outcome (a + i) = some (errs (a + i))) →
    extractRetryLoop outcome retryDelay a r
      = (Except.error (errs (a + r)), r + 1,
          (List.range r).map (fun i => max retryDelay 100 * 2 ^ (a + i))) := by
  intro r
  induction r with
  | zero =>
    intro a h
    have h0 := h 0 (by omega)
    simp only [Nat.add_zero] at h0 ⊢
    simp [extractRetryLoop, h0]
  | succ r2 ih =>
    intro a h
    have h0 := h 0 (by omega)
    simp only [Nat.add_zero] at h0
    have hrec := ih (a + 1) (fun i hi => by
      have := h (i + 1) (by omega)
      simpa [Nat.add_assoc, Nat.add_comm 1 i] using this)
    have hidx : a + 1 + r2 = a + (r2 + 1) := by omega
    rw [hidx] at hrec
    simp only [extractRetryLoop, h0, hrec]
    rw [delayList_shift]

theorem extractRetryLoop_first_success (outcome : Nat → Option (List Char))
    (retryDelay : Nat) : ∀ k a r,
    (∀ i, i < k → outcome (a + i) ≠ none) → outcome (a + k) = none → k ≤ r →
    extractRetryLoop outcome retryDelay a r
      = (Except.ok (), k + 1,
          (List.range k).map (fun i => max retryDelay 100 * 2 ^ (a + i))) := by
  intro k
  induction k with
  | zero =>
    intro a r hpre hk hle
    simp only [Nat.add_zero] at hk
    rcases r with _ | r2 <;> simp [extractRetryLoop, hk]
  | succ k2 ih =>
    intro a r hpre hk hle
    rcases r with _ | r2
    · omega
    · have h0 := hpre 0 (by omega)
      simp only [Nat.add_zero] at h0
      rcases ho : outcome a with _ | e
      · exact absurd ho h0
      · have hrec := ih (a + 1) r2
          (fun i hi => by
            have := hpre (i + 1) (by omega)
            simpa [Nat.add_assoc, Nat.add_comm 1 i] using this)
          (by simpa [Nat.add_assoc, Nat.add_comm 1 k2] using hk)
          (by omega)
        simp only [extractRetryLoop, ho, hrec]
        rw [delayList_shift]

/-- C7: on extraction failure the retry loop waits
`max(configuredDelay, 100) * 2 ^ attempt` before each retry, with the attempt
index counted from 0; the loop performs at most `retries + 1` extraction calls
(the initial attempt plus the configured number of retries); and when every
attempt fails, the error of the final attempt propagates unmodified.  For a
validated archive, `extractZipWithRetry` is exactly this loop. -/
theorem C7_retry_backoff (outcome : Nat → Option (List Char)) (retries retryDelay : Nat) :
    (∀ a r, (extractRetryLoop outcome retryDelay a r).2.1 ≤ r + 1) ∧
    (∀ errs : Nat → List Char, (∀ i, i ≤ retries → outcome i = some (errs i)) →
      extractRetryLoop outcome retryDelay 0 retries
        = (Except.error (errs retries), retries + 1,
            (List.range retries).map (fun i => max retryDelay 100 * 2 ^ i))) ∧
    (∀ k, (∀ i, i < k → outcome i ≠ none) → outcome k = none → k ≤ retries →
      extractRetryLoop outcome retryDelay 0 retries
        = (Except.ok (), k + 1,
            (List.range k).map (fun i => max retryDelay 100 * 2 ^ i))) ∧
    (∀ entries : List ZipEntry, (validateZipFile entries).valid = true →
      extractZipWithRetry entries outcome retries retryDelay
        = extractRetryLoop outcome retryDelay 0 retries) := by
  refine ⟨fun a r => extractRetryLoop_attempts_le outcome retryDelay r a, ?_, ?_, ?_⟩
  · intro errs h
    have := extractRetryLoop_all_fail outcome retryDelay errs retries 0
      (fun i hi => by simpa using h i hi)
    simpa using this
  · intro k hpre hk hle
    have := extractRetryLoop_first_success outcome retryDelay k 0 retries
      (fun i hi => by simpa using hpre i hi) (by simpa using hk) hle
    simpa using this
  · intro entries hv
    simp [extractZipWithRetry, hv]

theorem C7_retry_backoff_witness :
    extractRetryLoop (fun k => if k < 2 then some (s2l "io error") else some (s2l "disk full"))
        1000 0 2
      = (Except.error (s2l "disk full"), 3, [1000, 2000]) := by
  have h := (C7_retry_backoff
      (fun k => if k < 2 then some (s2l "io error") else some (s2l "disk full")) 2 1000).2.1
    (fun k => if k < 2 then s2l "io error" else s2l "disk full")
    (by decide)
  rw [h]
  decide

/-! ## Metadata writer and timestamp setter bookkeeping
(src/phases/5-exif.ts, src/phases/6-timestamps.ts) -/

/-- Result of one external per-item call (exif write / timestamp set):
success flag and optional error text. -/
structure WriteOutcome where
  success : Bool
  error : Option (List Char)
deriving DecidableEq

/-- The per-item bookkeeping of writeExifData (src/phases/5-exif.ts) after
`exifWriter.writeExif` returns: on failure, set the item's error only when it
is still null (`if (!file.error)`), and increment the exif-failure counter
regardless. -/
def applyExifResult (file : MediaFile) (stats : ProcessingStats)
    (result : WriteOutcome) : MediaFile × ProcessingStats :=
  if result.success then (file, stats)
  else
    ((if file.error = none then
        { file with error := some (s2l "EXIF write failed: "
            ++ result.error.getD (s2l "unknown error")) }
      else file),
      { stats with exifFailures := stats.exifFailures + 1 })

/-- The per-item bookkeeping of setFileTimestamps (src/phases/6-timestamps.ts)
after `setFileTimestamp` returns, with the same first-error-wins rule and the
timestamp-failure counter. -/
def applyTimestampResult (file : MediaFile) (stats : ProcessingStats)
    (result : WriteOutcome) : MediaFile × ProcessingStats :=
  if result.success then (file, stats)
  else
    ((if file.error = none then
        { file with error := some (s2l "Timestamp update failed: "
            ++ result.error.getD (s2l "unknown error")) }
      else file),
      { stats with timestampFailures := stats.timestampFailures + 1 })

/-- writeExifData over its eligible items, each item's writer outcome supplied
by `outcome`; every item is processed and the bookkeeping applied, whatever
the outcomes of the other items. -/
def runExifStage (outcome : MediaFile → WriteOutcome) :
    List MediaFile → ProcessingStats → List MediaFile × ProcessingStats
  | [], stats => ([], stats)
  | f :: rest, stats =>
    let r := applyExifResult f stats (outcome f)
    let rec2 := runExifStage outcome rest r.2
    (r.1 :: rec2.1, rec2.2)

/-- setFileTimestamps over its eligible items. -/
def runTimestampStage (outcome : MediaFile → WriteOutcome) :
    List MediaFile → ProcessingStats → List MediaFile × ProcessingStats
  | [], stats => ([], stats)
  | f :: rest, stats =>
    let r := applyTimestampResult f stats (outcome f)
    let rec2 := runTimestampStage outcome rest r.2
    (r.1 :: rec2.1, rec2.2)

theorem applyExifResult_file_stats_independent (f : MediaFile) (s1 s2 : ProcessingStats)
    (r : WriteOutcome) : (applyExifResult f s1 r).1 = (applyExifResult f s2 r).1 := by
  by_cases hs : r.success = true
  · simp [applyExifResult, hs]
  · have hf : r.success = false := by simpa using hs
    by_cases he : f.error = none <;> simp [applyExifResult, hf, he]

theorem applyTimestampResult_file_stats_independent (f : MediaFile)
    (s1 s2 : ProcessingStats) (r : WriteOutcome) :
    (applyTimestampResult f s1 r).1 = (applyTimestampResult f s2 r).1 := by
  by_cases hs : r.success = true
  · simp [applyTimestampResult, hs]
  · have hf : r.success = false := by simpa using hs
    by_cases he : f.error = none <;> simp [applyTimestampResult, hf, he]

theorem runExifStage_items (outcome : MediaFile → WriteOutcome) :
    ∀ (files : List MediaFile) (stats : ProcessingStats),
    (runExifStage outcome files stats).1
      = files.map (fun f => (applyExifResult f stats (outcome f)).1) := by
  intro files
  induction files with
  | nil => intro stats; simp [runExifStage]
  | cons f rest ih =>
    intro stats
    simp only [runExifStage, List.map_cons]
    rw [ih]
    congr 1
    apply List.map_congr_left
    intro g hg
    exact applyExifResult_file_stats_independent g _ stats (outcome g)

theorem runTimestampStage_items (outcome : MediaFile → WriteOutcome) :
    ∀ (files : List MediaFile) (stats : ProcessingStats),
    (runTimestampStage outcome files stats).1
      = files.map (fun f => (applyTimestampResult f stats (outcome f)).1) := by
  intro files
  induction files with
  | nil => intro stats; simp [runTimestampStage]
  | cons f rest ih =>
    intro stats
    simp only [runTimestampStage, List.map_cons]
    rw [ih]
    congr 1
    apply List.map_congr_left
    intro g hg
    exact applyTimestampResult_file_stats_independent g _ stats (outcome g)

/-- C8: first-error-wins — once an item's error field is non-null, neither the
Metadata Writer nor the Timestamp Setter overwrites it, while each still
increments its own failure counter on a failed call; and a per-item failure
never stops processing of other items: each stage's output processes every
item with its own outcome, independently of the other items' outcomes. -/
theorem C8_first_error_wins (file : MediaFile) (stats : ProcessingStats)
    (r : WriteOutcome) :
    (∀ e, file.error = some e → (applyExifResult file stats r).1.error = some e) ∧
    (∀ e, file.error = some e → (applyTimestampResult file stats r).1.error = some e) ∧
    (r.success = false →
      (applyExifResult file stats r).2.exifFailures = stats.exifFailures + 1 ∧
      (applyTimestampResult file stats r).2.timestampFailures
        = stats.timestampFailures + 1) ∧
    (file.error = none → r.success = false →
      (applyExifResult file stats r).1.error
        = some (s2l "EXIF write failed: " ++ r.error.getD (s2l "unknown error"))) ∧
    (∀ (outcome : MediaFile → WriteOutcome) (files : List MediaFile)
        (stats2 : ProcessingStats),
      (runExifStage outcome files stats2).1
          = files.map (fun f => (applyExifResult f stats2 (outcome f)).1) ∧
      (runTimestampStage outcome files stats2).1
          = files.map (fun f => (applyTimestampResult f stats2 (outcome f)).1)) := by
  refine ⟨?_, ?_, ?_, ?_, ?_⟩
  · intro e he
    by_cases hs : r.success = true
    · simp [applyExifResult, hs, he]
    · have hf : r.success = false := by simpa using hs
      simp [applyExifResult, hf, he]
  · intro e he
    by_cases hs : r.success = true
    · simp [applyTimestampResult, hs, he]
    · have hf : r.success = false := by simpa using hs
      simp [applyTimestampResult, hf, he]
  · intro hf
    constructor
    · by_cases he : file.error = none <;> simp [applyExifResult, hf, he]
    · by_cases he : file.error = none <;> simp [applyTimestampResult, hf, he]
  · intro he hf
    simp [applyExifResult, hf, he]
  · intro outcome files stats2
    exact ⟨runExifStage_items outcome files stats2,
      runTimestampStage_items outcome files stats2⟩

theorem C8_first_error_wins_witness :
    ((applyExifResult
        { originalPath := s2l "/staging/a.jpg", filename := s2l "a.jpg",
          sourceFolder := [], metadata := none, statMtime := none,
          processedPaths := { byYear := some (s2l "out/2021/a.jpg"), byAlbum := none },
          status := ProcessingStatus.completed,
          error := some (s2l "Failed to organize") }
        { processedFiles := 1, failedFiles := 0, exifFailures := 0, timestampFailures := 0 }
        { success := false, error := some (s2l "exiftool crashed") }).1.error
      = some (s2l "Failed to organize")) ∧
    ((applyExifResult
        { originalPath := s2l "/staging/a.jpg", filename := s2l "a.jpg",
          sourceFolder := [], metadata := none, statMtime := none,
          processedPaths := { byYear := some (s2l "out/2021/a.jpg"), byAlbum := none },
          status := ProcessingStatus.completed,
          error := some (s2l "Failed to organize") }
        { processedFiles := 1, failedFiles := 0, exifFailures := 0, timestampFailures := 0 }
        { success := false, error := some (s2l "exiftool crashed") }).2.exifFailures = 1) := by
  constructor
  · exact (C8_first_error_wins
      { originalPath := s2l "/staging/a.jpg", filename := s2l "a.jpg",
        sourceFolder := [], metadata := none, statMtime := none,
        processedPaths := { byYear := some (s2l "out/2021/a.jpg"), byAlbum := none },
        status := ProcessingStatus.completed,
        error := some (s2l "Failed to organize") }
      { processedFiles := 1, failedFiles := 0, exifFailures := 0, timestampFailures := 0 }
      { success := false, error := some (s2l "exiftool crashed") }).1
      (s2l "Failed to organize") rfl
  · exact ((C8_first_error_wins
      { originalPath := s2l "/staging/a.jpg", filename := s2l "a.jpg",
        sourceFolder := [], metadata := none, statMtime := none,
        processedPaths := { byYear := some (s2l "out/2021/a.jpg"), byAlbum := none },
        status := ProcessingStatus.completed,
        error := some (s2l "Failed to organize") }
      { processedFiles := 1, failedFiles := 0, exifFailures := 0, timestampFailures := 0 }
      { success := false, error := some (s2l "exiftool crashed") }).2.2.1 rfl).1

/-! ## Magic-byte detection and extension correction
(src/services/magic-byte-detector.ts) -/

/-- ASCII lowering of one character (JavaScript `toLowerCase` on the ASCII
strings in play). -/
def toLowerChar (c : Char) : Char :=
  if 'A' ≤ c ∧ c ≤ 'Z' then Char.ofNat (c.toNat + 32) else c

/-- ASCII raising of one character (JavaScript `toUpperCase`). -/
def toUpperChar (c : Char) : Char :=
  if 'a' ≤ c ∧ c ≤ 'z' then Char.ofNat (c.toNat - 32) else c

/-- `matchesSignature` (src/services/magic-byte-detector.ts): the buffer holds
exactly the signature bytes at the given offset. -/
def matchesSignature (buffer signature : List Nat) (offset : Nat) : Bool :=
  if buffer.length < offset + signature.length then false
  else (buffer.drop offset).take signature.length == signature

/-- `buffer.toString('ascii', start, stop)`: Node ascii decoding masks each
byte to 7 bits. -/
def asciiSlice (buffer : List Nat) (start stop : Nat) : List Char :=
  ((buffer.drop start).take (stop - start)).map (fun b => Char.ofNat (b % 128))

/-- The file types the detector can recognize. -/
inductive FileKind
  | jpeg
  | png
  | gif
  | webp
  | bmp
  | heic
  | tiff
deriving DecidableEq

/-- `HEIC_BRANDS` (magic-byte-detector.ts). -/
def HEIC_BRANDS : List (List Char) :=
  [s2l "heic", s2l "heix", s2l "hevc", s2l "hevx", s2l "mif1", s2l "msf1"]

/-- `detectFileType` (magic-byte-detector.ts) on the first 24 bytes of the
file, in the source's test order: JPEG, PNG, GIF87a/89a, WEBP (RIFF plus the
"WEBP" marker at offset 8), BMP, HEIC/HEIF (an `ftyp` box whose lower-cased
brand is a known HEIC brand), then little/big-endian TIFF.  A `none` input
models an unreadable file (non-fatal: no signature). -/
def detectFileType (bytes : Option (List Nat)) : Option FileKind :=
  match bytes with
  | none => none
  | some buffer =>
    if matchesSignature buffer [0xff, 0xd8, 0xff] 0 then some FileKind.jpeg
    else if matchesSignature buffer [0x89, 0x50, 0x4e, 0x47, 0x0d, 0x0a, 0x1a, 0x0a] 0 then
      some FileKind.png
    else if matchesSignature buffer [0x47, 0x49, 0x46, 0x38, 0x37, 0x61] 0
        || matchesSignature buffer [0x47, 0x49, 0x46, 0x38, 0x39, 0x61] 0 then
      some FileKind.gif
    else if matchesSignature buffer [0x52, 0x49, 0x46, 0x46] 0
        && asciiSlice buffer 8 12 == s2l "WEBP" then
      some FileKind.webp
    else if matchesSignature buffer [0x42, 0x4d] 0 then some FileKind.bmp
    else if asciiSlice buffer 4 8 == s2l "ftyp"
        && HEIC_BRANDS.contains ((asciiSlice buffer 8 12).map toLowerChar) then
      some FileKind.heic
    else if matchesSignature buffer [0x49, 0x49, 0x2a, 0x00] 0
        || matchesSignature buffer [0x4d, 0x4d, 0x00, 0x2a] 0 then
      some FileKind.tiff
    else none

/-- The `typeToExtensions` table of `getCorrectExtension`
(magic-byte-detector.ts); the first entry of each list is the canonical
extension used for a correction. -/
def typeToExtensions : FileKind → List (List Char)
  | FileKind.jpeg => [s2l ".jpg", s2l ".jpeg"]
  | FileKind.png => [s2l ".png"]
  | FileKind.gif => [s2l ".gif"]
  | FileKind.webp => [s2l ".webp"]
  | FileKind.bmp => [s2l ".bmp"]
  | FileKind.heic => [s2l ".heic", s2l ".heif"]
  | FileKind.tiff =>
    [s2l ".tiff", s2l ".tif", s2l ".dng", s2l ".cr2", s2l ".nef", s2l ".arw", s2l ".raw"]

/-- The `rawExtensions` list of the TIFF special case (magic-byte-detector.ts). -/
def rawExtensions : List (List Char) :=
  [s2l ".dng", s2l ".cr2", s2l ".nef", s2l ".arw", s2l ".raw"]

/-- `getCorrectExtension` (magic-byte-detector.ts): keep the declared
extension when no signature is detected, when the declared extension (lowered)
is valid for the detected type, or when a TIFF signature meets a RAW declared
extension; otherwise substitute the canonical extension of the detected type,
upper-cased when the declared extension equals its own upper-casing. -/
def getCorrectExtension (bytes : Option (List Nat)) (declaredExtension : List Char) :
    List Char × Bool :=
  match detectFileType bytes with
  | none => (declaredExtension, false)
  | some detectedType =>
    let declaredLower := declaredExtension.map toLowerChar
    let validExtensions := typeToExtensions detectedType
    if validExtensions.contains declaredLower then (declaredExtension, false)
    else if detectedType = FileKind.tiff ∧ rawExtensions.contains declaredLower then
      (declaredExtension, false)
    else
      let correctExtension := validExtensions.headI
      let isUpper := declaredExtension == declaredExtension.map toUpperChar
      (if isUpper then correctExtension.map toUpperChar else correctExtension, true)

/-- `filename.replace(/\.[^/.]+$/, extension)` (src/phases/2-discovery.ts):
replace from the last dot on when the tail after it is nonempty and free of
'/' and '.', otherwise leave the filename unchanged. -/
def replaceFilenameExtension (filename newExt : List Char) : List Char :=
  match spanP (fun c => !(c == '.') && !(c == '/')) filename.reverse with
  | (_, []) => filename
  | (revBody, c :: revStem) =>
    if c = '.' then
      if revBody = [] then filename else revStem.reverse ++ newExt
    else filename

/-- The filename recorded by `processMediaFile` (2-discovery.ts): renamed
exactly when the extension was corrected. -/
def discoveredFilename (bytes : Option (List Nat)) (originalFilename : List Char) :
    List Char :=
  let declaredExtension := pathExtname originalFilename
  let r := getCorrectExtension bytes declaredExtension
  if r.2 then replaceFilenameExtension originalFilename r.1 else originalFilename

/-- A JPEG file's first 24 bytes (SOI marker then arbitrary data). -/
def jpegSampleBuffer : List Nat := [0xff, 0xd8, 0xff, 0xe0] ++ List.replicate 20 0

/-- A little-endian TIFF file's first 24 bytes (also the layout of
TIFF-structured RAW containers such as DNG). -/
def tiffSampleBuffer : List Nat := [0x49, 0x49, 0x2a, 0x00] ++ List.replicate 20 0

example : detectFileType (some jpegSampleBuffer) = some FileKind.jpeg := by decide
example : detectFileType (some tiffSampleBuffer) = some FileKind.tiff := by decide
example : detectFileType (some (List.replicate 24 0)) = none := by decide
example : getCorrectExtension (some jpegSampleBuffer) (s2l ".PNG") = (s2l ".JPG", true) := by
  decide
example : discoveredFilename (some jpegSampleBuffer) (s2l "image.png") = s2l "image.jpg" := by
  decide

theorem raw_subset_tiff (x : List Char) (h : rawExtensions.contains x = true) :
    (typeToExtensions FileKind.tiff).contains x = true := by
  have hmem : x ∈ rawExtensions := by simpa using h
  have hmem2 : x ∈ typeToExtensions FileKind.tiff := by
    simp [rawExtensions] at hmem
    rcases hmem with h1 | h1 | h1 | h1 | h1 <;> simp [typeToExtensions, h1]
  simpa using hmem2

/-- C5: for every file whose magic-byte signature is recognized and whose
declared extension is not valid for that signature's type, the extension is
replaced by the canonical extension of the detected type, preserving case
style (a declared extension equal to its own upper-casing produces an
upper-case correction, otherwise lower-case); a declared extension valid for
the type is kept; a file named image.png with JPEG leading bytes becomes
image.jpg; a TIFF signature with a RAW declared extension (.dng/.cr2/.nef/
.arw/.raw) keeps the declared extension; when no signature matches (including
unreadable files) the declared extension is kept unchanged. -/
theorem C5_extension_correction (bytes : Option (List Nat)) (ext : List Char) :
    (∀ ty, detectFileType bytes = some ty →
      (typeToExtensions ty).contains (ext.map toLowerChar) = false →
      ¬(ty = FileKind.tiff ∧ rawExtensions.contains (ext.map toLowerChar) = true) →
      getCorrectExtension bytes ext
        = ((if ext == ext.map toUpperChar
            then (typeToExtensions ty).headI.map toUpperChar
            else (typeToExtensions ty).headI), true)) ∧
    (∀ ty, detectFileType bytes = some ty →
      (typeToExtensions ty).contains (ext.map toLowerChar) = true →
      getCorrectExtension bytes ext = (ext, false)) ∧
    (detectFileType bytes = none → getCorrectExtension bytes ext = (ext, false)) ∧
    (detectFileType bytes = some FileKind.tiff →
      rawExtensions.contains (ext.map toLowerChar) = true →
      getCorrectExtension bytes ext = (ext, false)) ∧
    (getCorrectExtension (some jpegSampleBuffer) (s2l ".png") = (s2l ".jpg", true) ∧
      discoveredFilename (some jpegSampleBuffer) (s2l "image.png") = s2l "image.jpg") ∧
    (getCorrectExtension (some tiffSampleBuffer) (s2l ".dng") = (s2l ".dng", false) ∧
      discoveredFilename (some tiffSampleBuffer) (s2l "raw.dng") = s2l "raw.dng") := by
  have hvalidkeep : ∀ ty, detectFileType bytes = some ty →
      (typeToExtensions ty).contains (ext.map toLowerChar) = true →
      getCorrectExtension bytes ext = (ext, false) := by
    intro ty hty hvalid
    simp only [getCorrectExtension, hty]
    rw [if_pos hvalid]
  refine ⟨?_, hvalidkeep, ?_, ?_, ⟨by decide, by decide⟩, ⟨by decide, by decide⟩⟩
  · intro ty hty hvalid hraw
    simp only [getCorrectExtension, hty]
    rw [if_neg (by simpa using hvalid), if_neg (by simpa using hraw)]
  · intro hnone
    simp [getCorrectExtension, hnone]
  · intro hty hraw
    exact hvalidkeep FileKind.tiff hty (raw_subset_tiff (ext.map toLowerChar) hraw)

theorem C5_extension_correction_witness :
    getCorrectExtension (some jpegSampleBuffer) (s2l ".PNG") = (s2l ".JPG", true) ∧
    getCorrectExtension (some tiffSampleBuffer) (s2l ".dng") = (s2l ".dng", false) := by
  constructor
  · have h := (C5_extension_correction (some jpegSampleBuffer) (s2l ".PNG")).1
      FileKind.jpeg (by decide) (by decide) (by decide)
    rw [h]
    decide
  · exact (C5_extension_correction (some tiffSampleBuffer) (s2l ".dng")).2.2.2.1
      (by decide) (by decide)
